import Mathlib

/-!
Verification development for the Rudimentary-Compiler repository
(lexer, recursive-descent parser, semantic analyzer with a scoped symbol
table, and a toy 256-byte code generator).

Each C++ component is shallowly embedded as executable Lean definitions:
mutable members become explicit state records, `std::optional` becomes
`Option`, `uint8_t` arithmetic is `Nat` arithmetic taken `% 256` where the
C++ wraps, and diagnostics printed to the log / stdout are collected as
lists of `Diag` tags (the human-readable message text, log colouring and
column counters carry no information used by any checked property and are
not modelled).  Where several historical snapshots of a file exist in the
repository, the embedding follows the snapshot the claims cite (the one
whose line numbers the claim sources name).
-/

namespace RC

/-- Token kinds, from `src/Token.h` (`enum class TokenType`). -/
inductive TokenType where
  | EOP
  | OPEN_BLOCK
  | CLOSE_BLOCK
  | PRINT
  | ASSIGN_OP
  | WHILE
  | IF
  | OPEN_PARENTHESIS
  | CLOSE_PARENTHESIS
  | I_TYPE
  | ID
  | NUMBER
  | QUOTE
  | CHAR
  | BOOL_VAL
  | EQUALITY_OP
  | INEQUALITY_OP
  | INT_OP
  | UNKNOWN
deriving DecidableEq, Repr

/-- A token, from `src/Token.h` (`struct Token`): kind, literal text, line. -/
structure Token where
  ttype : TokenType
  value : List Char
  line : Nat
deriving DecidableEq, Repr

/-- Diagnostic tags.  The C++ writes formatted strings through `Logger::log`
or straight to `std::cout`; only the identity of each diagnostic matters to
the properties below, so each distinct message is a tag (with the payload
that varies).  DEBUG/INFO/verbose messages carry no checked information and
are not recorded. -/
inductive Diag where
  /-- Lexer `"Unrecognized Token"` / `"Unrecognized character"` (ERROR). -/
  | unrecognizedChar (c : Char)
  /-- Lexer `"Unterminated string"` (ERROR). -/
  | untermString
  /-- Lexer `"Unterminated comment"` (WARNING). -/
  | untermComment
  /-- Lexer `"Expected '='"` after a lone `!` (WARNING in the code). -/
  | expectedEq
  /-- Lexer `"Final program missing terminating '$'..."` (ERROR). -/
  | missingEop
  /-- Lexer `"Lex failed with N error(s)"` (ERROR). -/
  | lexFail
  /-- Parser / semantic-analyzer `"Expected [..] got [..]"` (ERROR). -/
  | tokenMismatch
  /-- Semantic `"[Error] Redeclaration of variable .."`. -/
  | redecl (name : List Char)
  /-- Semantic `"[Error] Undeclared variable .. used at line .."`. -/
  | undeclaredVar (name : List Char)
  /-- Semantic `"[Error] Invalid expression at line .."`. -/
  | invalidExpr
  /-- Semantic `"[Error] Non-boolean expression in if/while .."`. -/
  | nonBoolCond
  /-- `"[Warning] Variable .. declared and initialized but never used .."`. -/
  | unusedInitVar (name : List Char)
  /-- `"[Warning] Variable .. declared but never used .."`. -/
  | unusedVar (name : List Char)
deriving DecidableEq, Repr

/-! ### C character classification (`<cctype>`, C locale, ASCII input) -/

/-- C `isspace`: space, `\t`, `\n`, vertical tab, form feed, `\r`. -/
def cIsSpace (c : Char) : Bool :=
  c = ' ' || c = '\t' || c = '\n' || c = '\x0b' || c = '\x0c' || c = '\r'

/-- C `isalpha` (C locale): ASCII letters. -/
def cIsAlpha (c : Char) : Bool :=
  ('a' ≤ c && c ≤ 'z') || ('A' ≤ c && c ≤ 'Z')

/-- C `islower` (C locale). -/
def cIsLower (c : Char) : Bool :=
  'a' ≤ c && c ≤ 'z'

/-- C `isdigit`. -/
def cIsDigit (c : Char) : Bool :=
  '0' ≤ c && c ≤ '9'

/-! ### Lexer (`src/Lexer.h`)

State of one `Lexer` object: the source text, the position/line cursors,
the per-program `error_count`, the emitted diagnostics (modelling the log
stream) and the accumulated token vector.  The column counter feeds only
message text and is not modelled. -/

structure LexSt where
  src : List Char
  pos : Nat
  line : Nat
  errors : Nat
  diags : List Diag
  tokens : List Token
deriving DecidableEq, Repr

namespace LexSt

/-- `source[i]`: `std::string::operator[]` yields `'\0'` at `i = size()`
(and the scanner never reads further, so the total default is faithful). -/
def charAt (st : LexSt) (i : Nat) : Char :=
  st.src.getD i '\x00'

/-- `Lexer::isEOF`. -/
def isEOF (st : LexSt) : Bool :=
  st.src.length ≤ st.pos

/-- `Lexer::advance`: read the current character, step `pos`, and track the
line counter (`new_line()` on `'\n'`; the column counter is not modelled). -/
def ladvance (st : LexSt) : Char × LexSt :=
  let c := st.charAt st.pos
  (c, { st with pos := st.pos + 1, line := if c = '\n' then st.line + 1 else st.line })

/-- `Lexer::prev`. -/
def lprev (st : LexSt) : Char :=
  if st.pos = 0 then '\x00' else st.charAt (st.pos - 1)

/-- `Lexer::peek`. -/
def lpeek (st : LexSt) : Char :=
  if st.isEOF then '\x00' else st.charAt st.pos

/-- `Lexer::next`. -/
def lnext (st : LexSt) : Char :=
  if st.src.length ≤ st.pos + 1 then '\x00' else st.charAt (st.pos + 1)

/-- `Lexer::log` with `LogLevel::ERROR`: record the message and bump
`error_count`. -/
def pushErr (d : Diag) (st : LexSt) : LexSt :=
  { st with errors := st.errors + 1, diags := st.diags ++ [d] }

/-- `Lexer::log` with `LogLevel::WARNING`: record the message only. -/
def pushWarn (d : Diag) (st : LexSt) : LexSt :=
  { st with diags := st.diags ++ [d] }

/-- `Lexer::addToken` / `addTokenWithCustomMessage`: push a token carrying
the current line (the DEBUG message is not modelled). -/
def addToken (tt : TokenType) (v : List Char) (st : LexSt) : LexSt :=
  { st with tokens := st.tokens ++ [⟨tt, v, st.line⟩] }

end LexSt

open LexSt

/-- The `while (peek() != '*' && peek() != EOFILE) advance();` loop inside
`Lexer::match`. -/
def skipToStar (st : LexSt) : LexSt :=
  if h : st.lpeek ≠ '*' ∧ st.lpeek ≠ '\x00' then
    skipToStar (st.ladvance).2
  else st
termination_by st.src.length - st.pos
decreasing_by
  have hlt : st.pos < st.src.length := by
    by_contra hge
    have : st.lpeek = '\x00' := by
      simp [LexSt.lpeek, LexSt.isEOF, Nat.le_of_not_lt (by omega : ¬ st.pos < st.src.length)]
    exact h.2 this
  simp [LexSt.ladvance]
  omega

/-- The comment-skip prologue inside `Lexer::match`: when a `/*` sits at
the cursor, consume it, scan to the next `*` (or end of input), consume a
closing `*/` when present, and — at end of input — warn and make `match`
return `false` early (the `Bool` component records that early return). -/
def lmatchComment (st : LexSt) : LexSt × Bool :=
  if st.charAt st.pos = '/' ∧ st.lnext = '*' then
    let st1 := ((st.ladvance).2.ladvance).2
    let st2 := skipToStar st1
    let st3 := if st2.lpeek = '*' ∧ st2.lnext = '/' then
                 ((st2.ladvance).2.ladvance).2
               else st2
    if st3.lpeek = '\x00' then (st3.pushWarn .untermComment, true)
    else (st3, false)
  else (st, false)

/-- `Lexer::match(char expected)`: the bounds check, the embedded comment
skip, and the conditional consume.  Returns the C++ `bool` result. -/
def lmatch (expected : Char) (st : LexSt) : Bool × LexSt :=
  if st.isEOF then (false, st)
  else
    let r := lmatchComment st
    if r.2 then (false, r.1)
    else if r.1.isEOF ∨ r.1.charAt r.1.pos ≠ expected then (false, r.1)
    else (true, { r.1 with pos := r.1.pos + 1 })

/-- The character-consuming loop of `Lexer::scan_string`: while the current
character is neither the closing quote nor end-of-input and is
alphabetic-or-whitespace, report non-(lowercase|space) characters as errors,
turn the legal ones into `CHAR` tokens, and advance. -/
def scanStringLoop (st : LexSt) : LexSt :=
  if h : st.lpeek ≠ '"' ∧ st.lpeek ≠ '\x00' ∧ (cIsAlpha st.lpeek ∨ cIsSpace st.lpeek) then
    let st' := if ¬ (cIsLower st.lpeek) ∧ st.lpeek ≠ ' ' then
                 st.pushErr (.unrecognizedChar st.lpeek)
               else st.addToken .CHAR [st.lpeek]
    scanStringLoop (st'.ladvance).2
  else st
termination_by st.src.length - st.pos
decreasing_by
  have hlt : st.pos < st.src.length := by
    by_contra hge
    have : st.lpeek = '\x00' := by
      simp [LexSt.lpeek, LexSt.isEOF, Nat.le_of_not_lt (by omega : ¬ st.pos < st.src.length)]
    exact h.2.1 this
  simp [LexSt.ladvance, LexSt.pushErr, LexSt.addToken]
  split <;> simp <;> omega

/-- `Lexer::scan_string` (called after the opening quote was tokenized):
run the loop, then either report `Unterminated string` or consume the
closing quote and emit its own `QUOTE` token. -/
def scanString (st : LexSt) : LexSt :=
  if (scanStringLoop st).isEOF ∨ (scanStringLoop st).lpeek ≠ '"' then
    (scanStringLoop st).pushErr .untermString
  else (((scanStringLoop st).ladvance).2).addToken .QUOTE ['"']

/-- The loop of `Lexer::scan_comment`:
`while (peek() != '*' && peek() != EOFILE || (next() != '/' && next() != EOFILE))`. -/
def scanCommentLoop (st : LexSt) : LexSt :=
  if h : (st.lpeek ≠ '*' ∧ st.lpeek ≠ '\x00') ∨ (st.lnext ≠ '/' ∧ st.lnext ≠ '\x00') then
    scanCommentLoop (st.ladvance).2
  else st
termination_by st.src.length - st.pos
decreasing_by
  have hlt : st.pos < st.src.length := by
    rcases h with h1 | h2
    · by_contra hge
      have : st.lpeek = '\x00' := by
        simp [LexSt.lpeek, LexSt.isEOF, Nat.le_of_not_lt (by omega : ¬ st.pos < st.src.length)]
      exact h1.2 this
    · by_contra hge
      have : st.lnext = '\x00' := by
        simp [LexSt.lnext]
        omega
      exact h2.2 this
  simp [LexSt.ladvance]
  omega

/-- `Lexer::scan_comment`: the loop, the unterminated-comment warning, and
one trailing `advance()`. -/
def scanComment (st : LexSt) : LexSt :=
  if ((scanCommentLoop st).lpeek = '*' ∧ (scanCommentLoop st).lnext ≠ '/') ∨
      (scanCommentLoop st).isEOF then
    (((scanCommentLoop st).pushWarn .untermComment).ladvance).2
  else ((scanCommentLoop st).ladvance).2

/-- The `while (isalpha(peek())) advance();` loop of `Lexer::scan_keyword`. -/
def scanKeywordLoop (st : LexSt) : LexSt :=
  if h : cIsAlpha st.lpeek then
    scanKeywordLoop (st.ladvance).2
  else st
termination_by st.src.length - st.pos
decreasing_by
  have hlt : st.pos < st.src.length := by
    by_contra hge
    have hz : st.lpeek = '\x00' := by
      simp [LexSt.lpeek, LexSt.isEOF, Nat.le_of_not_lt (by omega : ¬ st.pos < st.src.length)]
    rw [hz] at h
    simp [cIsAlpha] at h
  simp [LexSt.ladvance]
  omega

/-- The keyword-or-identifier classification chain of `Lexer::scan_keyword`:
exact match against `print`/`if`/`while`, the three type keywords, the two
boolean literals, otherwise an identifier. -/
def scanKeywordClassify (st1 : LexSt) (kw : List Char) : LexSt :=
  if kw = "print".toList then st1.addToken .PRINT kw
  else if kw = "if".toList then st1.addToken .IF kw
  else if kw = "while".toList then st1.addToken .WHILE kw
  else if kw = "int".toList ∨ kw = "string".toList ∨ kw = "boolean".toList then
    st1.addToken .I_TYPE kw
  else if kw = "true".toList ∨ kw = "false".toList then
    st1.addToken .BOOL_VAL kw
  else st1.addToken .ID kw

/-- `Lexer::scan_keyword` (entered with the first letter already consumed,
so the run starts at `pos - 1`): scan the alphabetic run, take the
substring, classify, emit the token. -/
def scanKeyword (st : LexSt) : LexSt :=
  scanKeywordClassify (scanKeywordLoop st)
    (((scanKeywordLoop st).src.drop (st.pos - 1)).take
      ((scanKeywordLoop st).pos - (st.pos - 1)))

/-- The `do { ... } while (ch != EOFILE && isdigit(ch))` loop of
`Lexer::scan_number`: fold the previously-read digit into the value, then
advance and re-test.  Returns the state, the terminating character and the
accumulated value. -/
def scanNumberLoop (st : LexSt) (ch : Char) (value : Nat) : LexSt × Char × Nat :=
  if h : (st.ladvance).1 ≠ '\x00' ∧ cIsDigit (st.ladvance).1 then
    scanNumberLoop (st.ladvance).2 (st.ladvance).1 (value * 10 + (ch.toNat - 48))
  else ((st.ladvance).2, (st.ladvance).1, value * 10 + (ch.toNat - 48))
termination_by st.src.length - st.pos
decreasing_by
  have hlt : st.pos < st.src.length := by
    by_contra hge
    have : (st.ladvance).1 = '\x00' := by
      simp [LexSt.ladvance, LexSt.charAt, List.getD_eq_getElem?_getD,
        List.getElem?_eq_none (show st.src.length ≤ st.pos by omega)]
    exact h.1 this
  simp only [LexSt.ladvance]
  omega

/-- The `if (pos > first_pos) --pos;` step of `scan_number`. -/
def scanNumberPosFix (firstPos : Nat) (st1 : LexSt) : LexSt :=
  if firstPos < st1.pos then { st1 with pos := st1.pos - 1 } else st1

/-- The `if (ch == '\n') --line;` compensation step of `scan_number`. -/
def scanNumberLineFix (c : Char) (st1 : LexSt) : LexSt :=
  if c = '\n' then { st1 with line := st1.line - 1 } else st1

/-- `Lexer::scan_number` (entered with the first digit already consumed, so
`prev()` is that digit): accumulate, back up one position past the final
non-digit, compensate the line counter if that non-digit was a newline, and
emit one `NUMBER` token whose text is the decimal rendering of the value. -/
def scanNumber (st : LexSt) : LexSt :=
  (scanNumberLineFix (scanNumberLoop st st.lprev 0).2.1
    (scanNumberPosFix st.pos (scanNumberLoop st st.lprev 0).1)).addToken .NUMBER
    (Nat.repr (scanNumberLoop st st.lprev 0).2.2).toList

/-- The `while (isspace(c)) c = advance();` whitespace skip opening
`Lexer::scan_token`.  (When `advance` runs at end of input it yields `'\0'`,
which is not a space, so the loop then stops.) -/
def skipSpaces (c : Char) (st : LexSt) : Char × LexSt :=
  if cIsSpace c then
    if h : st.pos < st.src.length then
      skipSpaces (st.ladvance).1 (st.ladvance).2
    else st.ladvance
  else (c, st)
termination_by st.src.length - st.pos
decreasing_by
  simp [LexSt.ladvance]
  omega

/-- The dispatch `switch` of `Lexer::scan_token`, acting on the character
`c` read (after whitespace skipping) and the state `st1` at that point. -/
def scanTokenDispatch (c : Char) (st1 : LexSt) : LexSt :=
  if c = '\x7b' then st1.addToken .OPEN_BLOCK ['\x7b']
  else if c = '\x7d' then st1.addToken .CLOSE_BLOCK ['\x7d']
  else if c = '(' then st1.addToken .OPEN_PARENTHESIS ['(']
  else if c = ')' then st1.addToken .CLOSE_PARENTHESIS [')']
  else if c = '/' then
    if (lmatch '*' st1).1 then scanComment (lmatch '*' st1).2 else (lmatch '*' st1).2
  else if c = '+' then st1.addToken .INT_OP ['+']
  else if c = '"' then scanString (st1.addToken .QUOTE ['"'])
  else if c = '=' then
    if (lmatch '=' st1).1 then (lmatch '=' st1).2.addToken .EQUALITY_OP ['=', '=']
    else (lmatch '=' st1).2.addToken .ASSIGN_OP ['=']
  else if c = '!' then
    if (lmatch '=' st1).1 then (lmatch '=' st1).2.addToken .INEQUALITY_OP ['!', '=']
    else (lmatch '=' st1).2.pushWarn .expectedEq
  else if c = '$' then st1.addToken .EOP ['$']
  else if cIsAlpha c then scanKeyword st1
  else if cIsDigit c then scanNumber st1
  else st1.pushErr (.unrecognizedChar c)

/-- `Lexer::scan_token`: `advance()`, skip whitespace, dispatch. -/
def scanToken (st : LexSt) : LexSt :=
  scanTokenDispatch (skipSpaces (st.ladvance).1 (st.ladvance).2).1
    (skipSpaces (st.ladvance).1 (st.ladvance).2).2

/-! Position/source facts about the scanning helpers, needed to justify
termination of the per-program `do { scan_token(); } while (...)` loop. -/

theorem skipToStar_facts (st : LexSt) :
    (skipToStar st).src = st.src ∧ st.pos ≤ (skipToStar st).pos := by
  induction st using skipToStar.induct with
  | case1 st h ih =>
    rw [skipToStar]
    rw [dif_pos h]
    simp [LexSt.ladvance] at ih
    simp [LexSt.ladvance]
    exact ⟨ih.1, by omega⟩
  | case2 st h =>
    rw [skipToStar]
    rw [dif_neg h]
    exact ⟨rfl, le_refl _⟩

theorem pushErr_src_pos (d : Diag) (st : LexSt) :
    (st.pushErr d).src = st.src ∧ (st.pushErr d).pos = st.pos := ⟨rfl, rfl⟩

theorem pushWarn_src_pos (d : Diag) (st : LexSt) :
    (st.pushWarn d).src = st.src ∧ (st.pushWarn d).pos = st.pos := ⟨rfl, rfl⟩

theorem addToken_src_pos (tt : TokenType) (v : List Char) (st : LexSt) :
    (st.addToken tt v).src = st.src ∧ (st.addToken tt v).pos = st.pos := ⟨rfl, rfl⟩

theorem ladvance_src_pos (st : LexSt) :
    (st.ladvance).2.src = st.src ∧ (st.ladvance).2.pos = st.pos + 1 := ⟨rfl, rfl⟩

theorem lmatchComment_facts (st : LexSt) :
    (lmatchComment st).1.src = st.src ∧ st.pos ≤ (lmatchComment st).1.pos := by
  unfold lmatchComment
  by_cases hc : st.charAt st.pos = '/' ∧ st.lnext = '*'
  · rw [if_pos hc]
    obtain ⟨hsrc, hpos⟩ := skipToStar_facts ((st.ladvance).2.ladvance).2
    simp only [LexSt.ladvance] at hsrc hpos
    dsimp only
    by_cases h3 : (skipToStar ((st.ladvance).2.ladvance).2).lpeek = '*' ∧
        (skipToStar ((st.ladvance).2.ladvance).2).lnext = '/'
    · rw [if_pos h3]
      split <;>
        simp_all [LexSt.ladvance, LexSt.pushWarn] <;> omega
    · rw [if_neg h3]
      split <;>
        simp_all [LexSt.ladvance, LexSt.pushWarn] <;> omega
  · rw [if_neg hc]
    exact ⟨rfl, le_refl _⟩

theorem lmatch_facts (e : Char) (st : LexSt) :
    ((lmatch e st).2).src = st.src ∧ st.pos ≤ (lmatch e st).2.pos := by
  unfold lmatch
  have h1 := lmatchComment_facts st
  split
  · exact ⟨rfl, le_refl _⟩
  · dsimp only
    split
    · exact h1
    · split
      · exact h1
      · exact ⟨h1.1, by have := h1.2; simp; omega⟩

theorem scanStringLoop_facts (st : LexSt) :
    (scanStringLoop st).src = st.src ∧ st.pos ≤ (scanStringLoop st).pos := by
  induction st using scanStringLoop.induct with
  | case1 st h stb ih =>
    rw [scanStringLoop]
    rw [dif_pos h]
    have hb : stb.src = st.src ∧ stb.pos = st.pos := by
      simp only [stb]
      split <;> exact ⟨rfl, rfl⟩
    refine ⟨?_, ?_⟩
    · show (scanStringLoop stb.ladvance.2).src = st.src
      rw [ih.1]
      simp [LexSt.ladvance, hb.1]
    · show st.pos ≤ (scanStringLoop stb.ladvance.2).pos
      have h2 := ih.2
      have hb2 := hb.2
      simp only [LexSt.ladvance] at h2 ⊢
      omega
  | case2 st h =>
    rw [scanStringLoop]
    rw [dif_neg h]
    exact ⟨rfl, le_refl _⟩

theorem scanString_facts (st : LexSt) :
    (scanString st).src = st.src ∧ st.pos ≤ (scanString st).pos := by
  unfold scanString
  have h1 := scanStringLoop_facts st
  have h2 := h1.2
  split
  · simp [LexSt.pushErr]
    exact h1
  · simp [LexSt.addToken, LexSt.ladvance]
    exact ⟨h1.1, by omega⟩

theorem scanCommentLoop_facts (st : LexSt) :
    (scanCommentLoop st).src = st.src ∧ st.pos ≤ (scanCommentLoop st).pos := by
  induction st using scanCommentLoop.induct with
  | case1 st h ih =>
    rw [scanCommentLoop]
    rw [dif_pos h]
    simp only [LexSt.ladvance] at ih ⊢
    exact ⟨ih.1, by have := ih.2; omega⟩
  | case2 st h =>
    rw [scanCommentLoop]
    rw [dif_neg h]
    exact ⟨rfl, le_refl _⟩

theorem scanComment_facts (st : LexSt) :
    (scanComment st).src = st.src ∧ st.pos ≤ (scanComment st).pos := by
  unfold scanComment
  have h1 := scanCommentLoop_facts st
  have h2 := h1.2
  split <;> simp [LexSt.pushWarn, LexSt.ladvance] <;> exact ⟨h1.1, by omega⟩

theorem scanKeywordLoop_facts (st : LexSt) :
    (scanKeywordLoop st).src = st.src ∧ st.pos ≤ (scanKeywordLoop st).pos := by
  induction st using scanKeywordLoop.induct with
  | case1 st h ih =>
    rw [scanKeywordLoop]
    rw [dif_pos h]
    simp only [LexSt.ladvance] at ih ⊢
    exact ⟨ih.1, by have := ih.2; omega⟩
  | case2 st h =>
    rw [scanKeywordLoop]
    rw [dif_neg h]
    exact ⟨rfl, le_refl _⟩

theorem scanKeywordClassify_facts (st1 : LexSt) (kw : List Char) :
    (scanKeywordClassify st1 kw).src = st1.src ∧ (scanKeywordClassify st1 kw).pos = st1.pos := by
  unfold scanKeywordClassify
  split_ifs <;> exact ⟨rfl, rfl⟩

theorem scanKeyword_facts (st : LexSt) :
    (scanKeyword st).src = st.src ∧ st.pos ≤ (scanKeyword st).pos := by
  unfold scanKeyword
  have h1 := scanKeywordLoop_facts st
  have h2 := scanKeywordClassify_facts (scanKeywordLoop st)
    (((scanKeywordLoop st).src.drop (st.pos - 1)).take
      ((scanKeywordLoop st).pos - (st.pos - 1)))
  exact ⟨by rw [h2.1, h1.1], by rw [h2.2]; exact h1.2⟩

theorem scanNumberLoop_facts (st : LexSt) (ch : Char) (value : Nat) :
    (scanNumberLoop st ch value).1.src = st.src ∧
      st.pos + 1 ≤ (scanNumberLoop st ch value).1.pos := by
  induction st, ch, value using scanNumberLoop.induct with
  | case1 st ch value h ih =>
    rw [scanNumberLoop]
    rw [dif_pos h]
    refine ⟨?_, ?_⟩
    · rw [ih.1]
      exact (ladvance_src_pos st).1
    · have h2 := ih.2
      rw [(ladvance_src_pos st).2] at h2
      omega
  | case2 st ch value h =>
    rw [scanNumberLoop]
    rw [dif_neg h]
    refine ⟨(ladvance_src_pos st).1, ?_⟩
    show st.pos + 1 ≤ (st.ladvance).2.pos
    rw [(ladvance_src_pos st).2]

theorem scanNumberPosFix_facts (fp : Nat) (st1 : LexSt) :
    (scanNumberPosFix fp st1).src = st1.src ∧ st1.pos - 1 ≤ (scanNumberPosFix fp st1).pos := by
  unfold scanNumberPosFix
  split <;> simp

theorem scanNumberLineFix_facts (c : Char) (st1 : LexSt) :
    (scanNumberLineFix c st1).src = st1.src ∧ (scanNumberLineFix c st1).pos = st1.pos := by
  unfold scanNumberLineFix
  split <;> simp

theorem scanNumber_facts (st : LexSt) :
    (scanNumber st).src = st.src ∧ st.pos ≤ (scanNumber st).pos := by
  unfold scanNumber
  have h1 := scanNumberLoop_facts st st.lprev 0
  have h2 := scanNumberPosFix_facts st.pos (scanNumberLoop st st.lprev 0).1
  have h3 := scanNumberLineFix_facts (scanNumberLoop st st.lprev 0).2.1
    (scanNumberPosFix st.pos (scanNumberLoop st st.lprev 0).1)
  simp only [LexSt.addToken]
  constructor
  · show (scanNumberLineFix _ _).src = st.src
    rw [h3.1, h2.1, h1.1]
  · show st.pos ≤ (scanNumberLineFix _ _).pos
    rw [h3.2]
    have := h1.2
    have := h2.2
    omega

theorem skipSpaces_facts (c : Char) (st : LexSt) :
    (skipSpaces c st).2.src = st.src ∧ st.pos ≤ (skipSpaces c st).2.pos := by
  induction c, st using skipSpaces.induct with
  | case1 c st hsp h ih =>
    rw [skipSpaces]
    rw [if_pos hsp, dif_pos h]
    rw [(ladvance_src_pos st).1, (ladvance_src_pos st).2] at ih
    exact ⟨ih.1, by have := ih.2; omega⟩
  | case2 c st hsp h =>
    rw [skipSpaces]
    rw [if_pos hsp, dif_neg h]
    exact ⟨(ladvance_src_pos st).1, by have hp := (ladvance_src_pos st).2; omega⟩
  | case3 c st hsp =>
    rw [skipSpaces]
    rw [if_neg hsp]
    exact ⟨rfl, le_refl _⟩

set_option maxHeartbeats 1000000 in
theorem scanTokenDispatch_facts (c : Char) (st1 : LexSt) :
    (scanTokenDispatch c st1).src = st1.src ∧ st1.pos ≤ (scanTokenDispatch c st1).pos := by
  unfold scanTokenDispatch
  have hm1 := lmatch_facts '*' st1
  have hm2 := lmatch_facts '=' st1
  have hc := scanComment_facts (lmatch '*' st1).2
  have hs := scanString_facts (st1.addToken .QUOTE ['"'])
  have hk := scanKeyword_facts st1
  have hn := scanNumber_facts st1
  by_cases h1 : c = '\x7b'
  · rw [if_pos h1]
    exact ⟨rfl, le_refl _⟩
  · rw [if_neg h1]
    by_cases h2 : c = '\x7d'
    · rw [if_pos h2]
      exact ⟨rfl, le_refl _⟩
    · rw [if_neg h2]
      by_cases h3 : c = '('
      · rw [if_pos h3]
        exact ⟨rfl, le_refl _⟩
      · rw [if_neg h3]
        by_cases h4 : c = ')'
        · rw [if_pos h4]
          exact ⟨rfl, le_refl _⟩
        · rw [if_neg h4]
          by_cases h5 : c = '/'
          · rw [if_pos h5]
            by_cases hm : (lmatch '*' st1).1 = true
            · rw [if_pos hm]
              exact ⟨hc.1.trans hm1.1, hm1.2.trans hc.2⟩
            · rw [if_neg hm]
              exact hm1
          · rw [if_neg h5]
            by_cases h6 : c = '+'
            · rw [if_pos h6]
              exact ⟨rfl, le_refl _⟩
            · rw [if_neg h6]
              by_cases h7 : c = '"'
              · rw [if_pos h7]
                exact ⟨hs.1, hs.2⟩
              · rw [if_neg h7]
                by_cases h8 : c = '='
                · rw [if_pos h8]
                  by_cases hm : (lmatch '=' st1).1 = true
                  · rw [if_pos hm]
                    exact ⟨hm2.1, hm2.2⟩
                  · rw [if_neg hm]
                    exact ⟨hm2.1, hm2.2⟩
                · rw [if_neg h8]
                  by_cases h9 : c = '!'
                  · rw [if_pos h9]
                    by_cases hm : (lmatch '=' st1).1 = true
                    · rw [if_pos hm]
                      exact ⟨hm2.1, hm2.2⟩
                    · rw [if_neg hm]
                      exact ⟨hm2.1, hm2.2⟩
                  · rw [if_neg h9]
                    by_cases h10 : c = '$'
                    · rw [if_pos h10]
                      exact ⟨rfl, le_refl _⟩
                    · rw [if_neg h10]
                      by_cases h11 : cIsAlpha c = true
                      · rw [if_pos h11]
                        exact hk
                      · rw [if_neg h11]
                        by_cases h12 : cIsDigit c = true
                        · rw [if_pos h12]
                          exact hn
                        · rw [if_neg h12]
                          exact ⟨rfl, le_refl _⟩

/-- `scan_token` preserves the source text and strictly advances `pos`
(its first `advance()` is unconditional and nothing ever moves backwards,
`scan_number`'s single `--pos` following its at-least-one `advance()`
included). -/
theorem scanToken_facts (st : LexSt) :
    (scanToken st).src = st.src ∧ st.pos < (scanToken st).pos := by
  unfold scanToken
  have hd := scanTokenDispatch_facts (skipSpaces (st.ladvance).1 (st.ladvance).2).1
    (skipSpaces (st.ladvance).1 (st.ladvance).2).2
  have hsk := skipSpaces_facts (st.ladvance).1 (st.ladvance).2
  have hadv := ladvance_src_pos st
  refine ⟨by rw [hd.1, hsk.1, hadv.1], ?_⟩
  have h1 := hd.2
  have h2 := hsk.2
  rw [hadv.2] at h2
  omega

/-- The `do { scan_token(); } while (!isEOF() && prev() != EOP);` loop of
`Lexer::scan`.  It terminates because `scan_token` strictly advances `pos`
(`scanToken_facts`). -/
def scanLoop (st : LexSt) : LexSt :=
  if h : ¬ (scanToken st).isEOF ∧ (scanToken st).lprev ≠ '$' then scanLoop (scanToken st)
  else scanToken st
termination_by st.src.length - st.pos
decreasing_by
  have hf := scanToken_facts st
  have hne : (scanToken st).pos < (scanToken st).src.length := by
    have h1 := h.1
    simpa [LexSt.isEOF] using h1
  rw [hf.1] at hne
  have h2 := hf.2
  calc (scanToken st).src.length - (scanToken st).pos
      = st.src.length - (scanToken st).pos := by rw [hf.1]
    _ < st.src.length - st.pos := by omega

/-- `Lexer::scan`: reset `error_count` and the token vector, run the
per-program loop, fail when at least one error was counted during it,
otherwise report a missing trailing `$` (as an ERROR) when the last token is
not `EOP`, and return the tokens. -/
def lexScan (st0 : LexSt) : Option (List Token) × LexSt :=
  let st := scanLoop { st0 with errors := 0, tokens := [] }
  if 0 < st.errors then (none, st.pushErr .lexFail)
  else if st.tokens ≠ [] ∧ (st.tokens.getLastD ⟨.UNKNOWN, [], 0⟩).ttype ≠ .EOP then
    (some st.tokens, st.pushErr .missingEop)
  else (some st.tokens, st)

/-- A fresh `Lexer` over the given source text (`pos = 0`, `line = 1`). -/
def lexInit (s : String) : LexSt :=
  ⟨s.toList, 0, 1, 0, [], []⟩

/-- Convenience: run one `scan()` call of a fresh lexer on a source string. -/
def lexProgram (s : String) : Option (List Token) × LexSt :=
  lexScan (lexInit s)

/-! ### Semantic analyzer (`src/SemanticAnalyzer.h` and `src/SymbolTable.h`)

The `SemanticAnalyzer` class re-parses the token stream into an AST of
`Node` objects tagged with `NodeType` and then walks that AST with a
scope-stacked `SymbolTable`. -/

/-- The semantic node kinds (`enum class NodeType`).  The header that
defines `NodeType` itself is not among the repository sources — only its
uses in `SemanticAnalyzer.h`, `CodeGen.h` and `Analyzer.h` are.  Modelled
from the spec: §3 lists the AST node kinds (program, block,
variable-declaration, assignment, if/while, print, expression variants,
identifier, char-list, boolean-operation), which together with the
enumerators named at the use sites fix this enumeration. -/
inductive NodeType where
  | BLOCK
  | VARIABLE_DECLARATION
  | ASSIGNMENT_STATEMENT
  | PRINT_STATEMENT
  | IF_STATEMENT
  | WHILE_STATEMENT
  | EXPRESSION
  | INT_EXPRESSION
  | STRING_EXPRESSION
  | BOOLEAN_EXPRESSION
  | BOOLEAN_OPERATION
  | CHAR_LIST
  | ID
  | UNKNOWN
deriving DecidableEq, Repr

/-- `enum class DataType` from `src/SymbolTable.h`. -/
inductive DataType where
  | Int
  | String
  | Boolean
  | Unknown
deriving DecidableEq, Repr

/-- The `Node` tree the semantic analyzer builds.  The class itself is in
the missing header; its shape is fixed by its uses (`get_node_type`,
`get_value`, `get_line`, `get_children`, and `addChild` overloads taking a
`NodeType`, an optional literal value, or a token).  Modelled from the
spec: §3's AST node is "a reduced tree tagged with a semantic node kind
... literal value, source line, and ordered children". -/
inductive ANode where
  | mk (ntype : NodeType) (value : List Char) (line : Nat) (children : List ANode)
deriving Repr

def ANode.ntype : ANode → NodeType
  | ⟨t, _, _, _⟩ => t

def ANode.value : ANode → List Char
  | ⟨_, v, _, _⟩ => v

def ANode.line : ANode → Nat
  | ⟨_, _, l, _⟩ => l

def ANode.children : ANode → List ANode
  | ⟨_, _, _, cs⟩ => cs

/-- `Node::addChild`: append a fully built child. -/
def ANode.push : ANode → ANode → ANode
  | ⟨t, v, l, cs⟩, c => ⟨t, v, l, cs ++ [c]⟩

/-- A symbol (`struct Symbol` in the authoritative `SymbolTable.h`
snapshot, where the declared type is kept as a string). -/
structure Symbol where
  name : List Char
  stype : List Char
  isInitialized : Bool
  isUsed : Bool
  lineNumber : Nat
deriving DecidableEq, Repr

/-- One scope frame: `std::unordered_map<std::string, Symbol>` modelled as
an association list in insertion order (keys unique within a frame). -/
abbrev Frame := List (List Char × Symbol)

/-- State of one `SemanticAnalyzer` object together with its `SymbolTable`
member: the scope-frame vector, `currentScopeLevel` (an `int` starting at
`-1`), the shared `error_count`, the emitted diagnostics, the parse cursor
(`current_token`), an out-of-bounds flag recording a read that would
dereference `tokens.end()` in C++, and a fuel-exhaustion flag for the
fuel-indexed recursive-descent functions below. -/
structure SemSt where
  scopes : List Frame
  level : Int
  errors : Nat
  diags : List Diag
  cursor : Nat
  oob : Bool
  fuelOut : Bool
deriving DecidableEq, Repr

namespace SemSt

/-- `log(LogLevel::ERROR, ...)` / the `std::cout << "[Error] ..."` prints
that are paired with an `++error_count`. -/
def pushErrDiag (d : Diag) (st : SemSt) : SemSt :=
  { st with errors := st.errors + 1, diags := st.diags ++ [d] }

/-- `SymbolTable::enterScope`: push an empty frame, bump the level. -/
def enterScope (st : SemSt) : SemSt :=
  { st with scopes := st.scopes ++ [[]], level := st.level + 1 }

/-- The unused-variable warnings `SymbolTable::exitScope` prints for the
back frame. -/
def frameWarnings (f : Frame) : List Diag :=
  f.foldl (fun acc p =>
    if ¬ p.2.isUsed ∧ p.2.isInitialized then acc ++ [.unusedInitVar p.2.name]
    else if ¬ p.2.isUsed then acc ++ [.unusedVar p.2.name]
    else acc) []

/-- `SymbolTable::exitScope` in the authoritative snapshot: warn about the
unused symbols of `scopes.back()` and decrement `currentScopeLevel`.  This
snapshot contains no `scopes.pop_back()` — the frame stays in the vector.
(`back()` on an empty vector is undefined in C++; modelled as no
warnings.) -/
def exitScope (st : SemSt) : SemSt :=
  let ws := match st.scopes.getLast? with
            | some f => frameWarnings f
            | none => []
  { st with diags := st.diags ++ ws, level := st.level - 1 }

/-- `SymbolTable::addSymbol`: into `scopes.back()`; a name already present
in that frame is a redeclaration error, the frame keeps the existing entry
and `false` is returned.  (`back()` on an empty vector is undefined in C++;
modelled as returning `false`.) -/
def addSymbol (st : SemSt) (name ty : List Char) (line : Nat) : SemSt × Bool :=
  match st.scopes.getLast? with
  | none => (st, false)
  | some f =>
    if (f.find? (fun p => p.1 = name)).isSome then
      ({ st with diags := st.diags ++ [.redecl name] }, false)
    else
      ({ st with scopes :=
           st.scopes.dropLast ++ [f ++ [(name, ⟨name, ty, false, false, line⟩)]] }, true)

/-- Mark the symbol `name` used inside one frame. -/
def frameSetUsed (f : Frame) (name : List Char) : Frame :=
  f.map (fun p => if p.1 = name then (p.1, { p.2 with isUsed := true }) else p)

/-- Mark the symbol `name` initialized inside one frame. -/
def frameSetInit (f : Frame) (name : List Char) : Frame :=
  f.map (fun p => if p.1 = name then (p.1, { p.2 with isInitialized := true }) else p)

/-- The `for (int i = currentScopeLevel; i >= 0; --i)` search of
`SymbolTable::findSymbol` / `markInitialized`: innermost-to-outermost by
index, stopping at the first frame that contains the name. -/
def findFrom (scopes : List Frame) (name : List Char) : Nat → Option (Nat × Symbol)
  | 0 =>
    match (scopes.getD 0 []).find? (fun p => p.1 = name) with
    | some p => some (0, p.2)
    | none => none
  | i + 1 =>
    match (scopes.getD (i + 1) []).find? (fun p => p.1 = name) with
    | some p => some (i + 1, p.2)
    | none => findFrom scopes name i

/-- `SymbolTable::findSymbol`: search the chain from `currentScopeLevel`
down to `0`, mark the found symbol used, and return it (`nullptr` becomes
`none`).  A negative level means no frame is searched. -/
def findSymbol (st : SemSt) (name : List Char) : SemSt × Option Symbol :=
  if st.level < 0 then (st, none)
  else
    match findFrom st.scopes name st.level.toNat with
    | none => (st, none)
    | some (i, sym) =>
      ({ st with scopes := st.scopes.set i (frameSetUsed (st.scopes.getD i []) name) },
       some { sym with isUsed := true })

/-- `SymbolTable::markInitialized`: same search, set `isInitialized` on the
first hit.  (Present in the source; the call to it in `analyze_node` is
commented out.) -/
def markInitialized (st : SemSt) (name : List Char) : SemSt :=
  if st.level < 0 then st
  else
    match findFrom st.scopes name st.level.toNat with
    | none => st
    | some (i, _) =>
      { st with scopes := st.scopes.set i (frameSetInit (st.scopes.getD i []) name) }

end SemSt

open SemSt

/-- `SemanticAnalyzer::evaluate_expression`.  The `ID` case computes the
symbol and, when the lookup succeeds, falls through into the `default:`
branch (the C++ `case` block ends without `break`/`return` there), which
reports "Invalid expression" and yields `Unknown`. -/
def evalExpression (st : SemSt) (n : ANode) : DataType × SemSt :=
  match n.ntype with
  | .INT_EXPRESSION => (.Int, st)
  | .CHAR_LIST => (.String, st)
  | .BOOLEAN_EXPRESSION => (.Boolean, st)
  | .ID =>
    let r := findSymbol st n.value
    match r.2 with
    | none => (.Unknown, { r.1 with errors := r.1.errors + 1 })
    | some _ => (.Unknown, pushErrDiag .invalidExpr r.1)
  | _ => (.Unknown, pushErrDiag .invalidExpr st)

mutual

/-- `SemanticAnalyzer::analyze_node`.  Child accesses (`children.front()`,
`children[1]`) are undefined in C++ when too few children exist; those
branches return the state unchanged and are unreachable for parsed trees. -/
def analyzeNode (st : SemSt) (n : ANode) : SemSt :=
  match n with
  | ⟨.BLOCK, _, _, cs⟩ => exitScope (analyzeList (enterScope st) cs)
  | ⟨.VARIABLE_DECLARATION, _, _, cs⟩ =>
    match cs with
    | tyN :: nameN :: _ =>
      let r := addSymbol st nameN.value tyN.value tyN.line
      if r.2 then r.1 else { r.1 with errors := r.1.errors + 1 }
    | _ => st
  | ⟨.ASSIGNMENT_STATEMENT, _, _, cs⟩ =>
    match cs with
    | idN :: exprN :: _ =>
      let r := findSymbol st idN.value
      match r.2 with
      | none => pushErrDiag (.undeclaredVar idN.value) r.1
      | some _ => (evalExpression r.1 exprN).2
      -- the type-mismatch check and `markInitialized` call that would
      -- follow here are commented out in the source
    | _ => st
  | ⟨.PRINT_STATEMENT, _, _, cs⟩ =>
    match cs with
    | e :: _ => (evalExpression st e).2
    | [] => st
  | ⟨.IF_STATEMENT, _, _, cs⟩ =>
    match cs with
    | cond :: body :: _ =>
      let r := evalExpression st cond
      let st1 := if r.1 ≠ .Boolean then pushErrDiag .nonBoolCond r.2 else r.2
      analyzeNode st1 body
    | _ => st
  | ⟨.WHILE_STATEMENT, _, _, cs⟩ =>
    match cs with
    | cond :: body :: _ =>
      let r := evalExpression st cond
      let st1 := if r.1 ≠ .Boolean then pushErrDiag .nonBoolCond r.2 else r.2
      analyzeNode st1 body
    | _ => st
  | ⟨.EXPRESSION, _, _, cs⟩ => analyzeList st cs
  | ⟨.STRING_EXPRESSION, _, _, cs⟩ => analyzeList st cs
  | ⟨.INT_EXPRESSION, _, _, cs⟩ => analyzeList st cs
  | ⟨.BOOLEAN_EXPRESSION, _, _, cs⟩ => analyzeList st cs
  | ⟨.BOOLEAN_OPERATION, _, _, cs⟩ => analyzeList st cs
  | ⟨.CHAR_LIST, _, _, cs⟩ => analyzeList st cs
  | ⟨.ID, _, _, cs⟩ => analyzeList st cs
  | ⟨.UNKNOWN, _, _, cs⟩ => analyzeList st cs

/-- The `for (const auto &child : node.get_children()) analyze_node(child);`
loops of `analyze_node`. -/
def analyzeList (st : SemSt) (l : List ANode) : SemSt :=
  match l with
  | [] => st
  | x :: xs => analyzeList (analyzeNode st x) xs

end

section SemanticParse

variable (toks : List Token)

/-- `SemanticAnalyzer::advance`: step the iterator unless it is already at
`tokens.end()`. -/
def semAdvance (st : SemSt) : SemSt :=
  if st.cursor < toks.length then { st with cursor := st.cursor + 1 } else st

/-- `SemanticAnalyzer::match_and_add`: when the current token has the
expected kind, add it as an `UNKNOWN`-typed child carrying its value and
line and advance; otherwise report a mismatch (ERROR, counted).  Reading
`current_token` at `tokens.end()` is undefined in C++; the model records
that in `oob` and reports a mismatch. -/
def matchAndAdd (parent : ANode) (tt : TokenType) (st : SemSt) : ANode × SemSt :=
  match toks[st.cursor]? with
  | some t =>
    if t.ttype = tt then
      (parent.push (ANode.mk .UNKNOWN t.value t.line []), semAdvance toks st)
    else (parent, pushErrDiag .tokenMismatch st)
  | none => (parent, pushErrDiag .tokenMismatch { st with oob := true })

/-- `SemanticAnalyzer::check`: consume the current token only when it has
the expected kind; never reports. -/
def semCheck (tt : TokenType) (st : SemSt) : SemSt :=
  match toks[st.cursor]? with
  | some t => if t.ttype = tt then semAdvance toks st else st
  | none => { st with oob := true }

/-- The current token's kind (`current_token->type`), recording the
would-be end-iterator dereference in `oob`. -/
def semCurTT (st : SemSt) : Option TokenType × SemSt :=
  match toks[st.cursor]? with
  | some t => (some t.ttype, st)
  | none => (none, { st with oob := true })

/-- The `while (current_token->type == TokenType::CHAR)` accumulation loop
of `SemanticAnalyzer::parse_char_list`. -/
def sCharsLoop : Nat → List Char → SemSt → List Char × SemSt
  | 0, acc, st => (acc, { st with fuelOut := true })
  | n + 1, acc, st =>
    match toks[st.cursor]? with
    | some t =>
      if t.ttype = .CHAR then sCharsLoop n (acc ++ t.value) (semAdvance toks st)
      else (acc, st)
    | none => (acc, { st with oob := true })

/-- `SemanticAnalyzer::parse_char_list`: collect the chars, then add one
`CHAR_LIST` child holding the accumulated string. -/
def sCharList (n : Nat) (parent : ANode) (st : SemSt) : ANode × SemSt :=
  let r := sCharsLoop toks n [] st
  (parent.push (ANode.mk .CHAR_LIST r.1 0 []), r.2)

/-- `SemanticAnalyzer::parse_string_expression`. -/
def sStringExpression (n : Nat) (parent : ANode) (st : SemSt) : ANode × SemSt :=
  let st1 := semCheck toks .QUOTE st
  let c := semCurTT toks st1
  if c.1 = some .QUOTE then (parent, semCheck toks .QUOTE c.2)
  else
    let r := sCharList toks n parent c.2
    (r.1, semCheck toks .QUOTE r.2)

/-- `SemanticAnalyzer::parse_id`. -/
def sId (parent : ANode) (st : SemSt) : ANode × SemSt :=
  matchAndAdd toks parent .ID st

/-- `SemanticAnalyzer::parse_var_declaration`: a `VARIABLE_DECLARATION`
node with the type keyword and the identifier as token children. -/
def sVarDeclaration (parent : ANode) (st : SemSt) : ANode × SemSt :=
  let n0 := ANode.mk .VARIABLE_DECLARATION [] 0 []
  let r1 := matchAndAdd toks n0 .I_TYPE st
  let r2 := sId toks r1.1 r1.2
  (parent.push r2.1, r2.2)

/-- `SemanticAnalyzer::parse_boolean_operation`: a `BOOLEAN_OPERATION`
wrapper node holding the operator token. -/
def sBooleanOperation (parent : ANode) (st : SemSt) : ANode × SemSt :=
  let n0 := ANode.mk .BOOLEAN_OPERATION [] 0 []
  let c := semCurTT toks st
  match c.1 with
  | some .EQUALITY_OP =>
    let r := matchAndAdd toks n0 .EQUALITY_OP c.2
    (parent.push r.1, r.2)
  | some .INEQUALITY_OP =>
    let r := matchAndAdd toks n0 .INEQUALITY_OP c.2
    (parent.push r.1, r.2)
  | _ => (parent.push n0, pushErrDiag .tokenMismatch c.2)

mutual

/-- `SemanticAnalyzer::parse_block`: a `BLOCK` node between the two brace
checks. -/
def sBlock : Nat → ANode → SemSt → ANode × SemSt
  | 0, parent, st => (parent, { st with fuelOut := true })
  | n + 1, parent, st =>
    let st1 := semCheck toks .OPEN_BLOCK st
    let r := sStatementList n (ANode.mk .BLOCK [] 0 []) st1
    (parent.push r.1, semCheck toks .CLOSE_BLOCK r.2)

/-- `SemanticAnalyzer::parse_statement_list` (statements attach straight to
the parent; `CLOSE_BLOCK` ends the list; anything else is a mismatch). -/
def sStatementList : Nat → ANode → SemSt → ANode × SemSt
  | 0, parent, st => (parent, { st with fuelOut := true })
  | n + 1, parent, st =>
    let c := semCurTT toks st
    match c.1 with
    | some .PRINT | some .ID | some .I_TYPE | some .WHILE | some .IF
    | some .OPEN_BLOCK =>
      let r := sStatement n parent c.2
      sStatementList n r.1 r.2
    | some .CLOSE_BLOCK => (parent, c.2)
    | _ => (parent, pushErrDiag .tokenMismatch c.2)

/-- `SemanticAnalyzer::parse_statement`. -/
def sStatement : Nat → ANode → SemSt → ANode × SemSt
  | 0, parent, st => (parent, { st with fuelOut := true })
  | n + 1, parent, st =>
    let c := semCurTT toks st
    match c.1 with
    | some .PRINT => sPrintStatement n parent c.2
    | some .ID => sAssignmentStatement n parent c.2
    | some .I_TYPE => sVarDeclaration toks parent c.2
    | some .WHILE => sWhileStatement n parent c.2
    | some .IF => sIfStatement n parent c.2
    | some .OPEN_BLOCK => sBlock n parent c.2
    | _ => (parent, pushErrDiag .tokenMismatch c.2)

/-- `SemanticAnalyzer::parse_print_statement`. -/
def sPrintStatement : Nat → ANode → SemSt → ANode × SemSt
  | 0, parent, st => (parent, { st with fuelOut := true })
  | n + 1, parent, st =>
    let st1 := semCheck toks .PRINT st
    let st2 := semCheck toks .OPEN_PARENTHESIS st1
    let r := sExpression n (ANode.mk .PRINT_STATEMENT [] 0 []) st2
    (parent.push r.1, semCheck toks .CLOSE_PARENTHESIS r.2)

/-- `SemanticAnalyzer::parse_assignment_statement`. -/
def sAssignmentStatement : Nat → ANode → SemSt → ANode × SemSt
  | 0, parent, st => (parent, { st with fuelOut := true })
  | n + 1, parent, st =>
    let r1 := sId toks (ANode.mk .ASSIGNMENT_STATEMENT [] 0 []) st
    let st2 := semCheck toks .ASSIGN_OP r1.2
    let r2 := sExpression n r1.1 st2
    (parent.push r2.1, r2.2)

/-- `SemanticAnalyzer::parse_while_statement`. -/
def sWhileStatement : Nat → ANode → SemSt → ANode × SemSt
  | 0, parent, st => (parent, { st with fuelOut := true })
  | n + 1, parent, st =>
    let st1 := semCheck toks .WHILE st
    let r1 := sBooleanExpression n (ANode.mk .WHILE_STATEMENT [] 0 []) st1
    let r2 := sBlock n r1.1 r1.2
    (parent.push r2.1, r2.2)

/-- `SemanticAnalyzer::parse_if_statement`. -/
def sIfStatement : Nat → ANode → SemSt → ANode × SemSt
  | 0, parent, st => (parent, { st with fuelOut := true })
  | n + 1, parent, st =>
    let st1 := semCheck toks .IF st
    let r1 := sBooleanExpression n (ANode.mk .IF_STATEMENT [] 0 []) st1
    let r2 := sBlock n r1.1 r1.2
    (parent.push r2.1, r2.2)

/-- `SemanticAnalyzer::parse_expression` (no wrapper node: the selected
sub-expression attaches straight to the parent). -/
def sExpression : Nat → ANode → SemSt → ANode × SemSt
  | 0, parent, st => (parent, { st with fuelOut := true })
  | n + 1, parent, st =>
    let c := semCurTT toks st
    match c.1 with
    | some .NUMBER => sIntExpression n parent c.2
    | some .QUOTE => sStringExpression toks n parent c.2
    | some .BOOL_VAL | some .OPEN_PARENTHESIS => sBooleanExpression n parent c.2
    | some .ID => sId toks parent c.2
    | _ => (parent, pushErrDiag .tokenMismatch c.2)

/-- `SemanticAnalyzer::parse_int_expression`. -/
def sIntExpression : Nat → ANode → SemSt → ANode × SemSt
  | 0, parent, st => (parent, { st with fuelOut := true })
  | n + 1, parent, st =>
    let r1 := matchAndAdd toks parent .NUMBER st
    let c := semCurTT toks r1.2
    if c.1 = some .INT_OP then
      let r2 := matchAndAdd toks r1.1 .INT_OP c.2
      sExpression n r2.1 r2.2
    else (r1.1, c.2)

/-- `SemanticAnalyzer::parse_boolean_expression`. -/
def sBooleanExpression : Nat → ANode → SemSt → ANode × SemSt
  | 0, parent, st => (parent, { st with fuelOut := true })
  | n + 1, parent, st =>
    let c := semCurTT toks st
    match c.1 with
    | some .OPEN_PARENTHESIS =>
      let st1 := semCheck toks .OPEN_PARENTHESIS c.2
      let r1 := sExpression n parent st1
      let r2 := sBooleanOperation toks r1.1 r1.2
      let r3 := sExpression n r2.1 r2.2
      (r3.1, semCheck toks .CLOSE_PARENTHESIS r3.2)
    | some .BOOL_VAL => matchAndAdd toks parent .BOOL_VAL c.2
    | _ => (parent, pushErrDiag .tokenMismatch c.2)

end

/-- `SemanticAnalyzer::analyze`: `error_count = 0`, parse the program into
the AST (`parse_program` = `parse_block` on the root plus a `check(EOP)`),
then run `analyze_node` on the root's first child, returning the final
state and the AST.  (`children().front()` on an empty root is undefined in
C++ and modelled as a no-op.) -/
def semAnalyze (fuel : Nat) : SemSt × ANode :=
  let st0 : SemSt := ⟨[], -1, 0, [], 0, false, false⟩
  let r := sBlock toks fuel (ANode.mk .BLOCK [] 0 []) st0
  let st1 := semCheck toks .EOP r.2
  let st2 := match r.1.children.head? with
             | some n => analyzeNode st1 n
             | none => st1
  (st2, r.1)

end SemanticParse

/-- The full per-program front-end run the claims exercise: lex the source,
and (as `main.cpp` does on lexer success) hand the token vector to the
semantic analyzer. -/
def lexAndAnalyze (s : String) : Option (SemSt × ANode) :=
  match lexProgram s with
  | (some toks, _) => some (semAnalyze toks (4 * toks.length + 16))
  | (none, _) => none

/-! ### Code generator buffer (`src/CodeGen.h`, `class CodeBuffer`)

`position` and `heap` are `uint8_t` members: every increment/decrement
wraps modulo 256, so the stored values always lie below 256.  `err` records
a thrown `std::runtime_error`; once it is set the remaining operations of a
run are skipped (exception unwinding). -/

structure CodeBuffer where
  code : List Nat
  position : Nat
  heap : Nat
  temps : List (Nat × List Nat)
  err : Bool
deriving DecidableEq, Repr

namespace CodeBuffer

/-- `CodeBuffer()` : 256 zero bytes, `position = 0`, `heap = 0xFF`. -/
def init : CodeBuffer := ⟨List.replicate 256 0, 0, 255, [], false⟩

/-- `uint8_t` decrement (`heap--` wraps `0 → 255`). -/
def hdec (h : Nat) : Nat := (h + 255) % 256

/-- `CodeBuffer::emit(uint8_t byte)`: the overflow guard
`if (position >= 256) throw ...` compares a `uint8_t` value (always below
256 after wrap-around) against 256, then writes `code[position++]`. -/
def emit (b : Nat) (buf : CodeBuffer) : CodeBuffer :=
  if buf.err then buf
  else if 256 ≤ buf.position then { buf with err := true }
  else { buf with code := buf.code.set buf.position (b % 256),
                  position := (buf.position + 1) % 256 }

/-- `CodeBuffer::emit(uint8_t op, uint8_t operand)`. -/
def emit2 (op operand : Nat) (buf : CodeBuffer) : CodeBuffer :=
  emit operand (emit op buf)

/-- `temp_addresses[address].push_back(position)` on the
`std::unordered_map<uint16_t, std::vector<uint8_t>>`, modelled as an
association list in insertion order. -/
def tempsPush (ts : List (Nat × List Nat)) (addr off : Nat) : List (Nat × List Nat) :=
  if (ts.find? (fun p => p.1 = addr)).isSome then
    ts.map (fun p => if p.1 = addr then (p.1, p.2 ++ [off]) else p)
  else ts ++ [(addr, [off])]

/-- `CodeBuffer::emit_with_temp_address(uint8_t op, uint16_t address)`:
emit the opcode, record the offset of the following two-byte little-endian
placeholder, emit the placeholder's low and high bytes. -/
def emitWithTempAddress (op addr : Nat) (buf : CodeBuffer) : CodeBuffer :=
  let b1 := emit op buf
  if b1.err then b1
  else
    let b2 := { b1 with temps := tempsPush b1.temps addr b1.position }
    emit ((addr / 256) % 256) (emit (addr % 256) b2)

/-- `CodeBuffer::add_string_variable`: write a terminating zero and then
the name's characters in reverse into the downward-growing heap
(`code[heap--] = ...`, no bound or overlap check), returning `heap + 1`. -/
def addStringVariable (name : List Char) (buf : CodeBuffer) : CodeBuffer × Nat :=
  if buf.err then (buf, 0)
  else
    let b1 := { buf with code := buf.code.set buf.heap 0, heap := hdec buf.heap }
    let b2 := name.reverse.foldl
      (fun b ch => { b with code := b.code.set b.heap (ch.toNat % 256), heap := hdec b.heap }) b1
    (b2, (b2.heap + 1) % 256)

/-- `CodeBuffer::backpatch`: for every recorded placeholder offset (map
entries in insertion order, offsets in push order) write the current
`position` into the single byte `code[offset]` and step `position` by two. -/
def backpatch (buf : CodeBuffer) : CodeBuffer :=
  if buf.err then buf
  else
    buf.temps.foldl (fun b p =>
      p.2.foldl (fun b off =>
        { b with code := b.code.set off b.position,
                 position := (b.position + 2) % 256 }) b) buf

end CodeBuffer

/-! ### Parser (`src/Parser.h`)

State of one `Parser` object: the token cursor (`current_token` as an
index), the `error_count`, a flag recording a read that would dereference
`tokens.end()` in C++ (the model then behaves as a mismatch), and a
fuel-exhaustion flag for the fuel-indexed recursive-descent functions.  The
CST the parser builds has no influence on the cursor, the error count or
control flow, and no claim mentions it, so node building is not modelled
here. -/

structure PSt where
  cursor : Nat
  errors : Nat
  oob : Bool
  fuelOut : Bool
deriving DecidableEq, Repr

section ParserDefs

variable (toks : List Token)

/-- `Parser::match`: consume the current token exactly when its kind equals
the expected kind, otherwise report a mismatch (ERROR, counted) without
advancing.  A read past the end of the token vector sets `oob` and counts
as a mismatch. -/
def pMatch (tt : TokenType) (s : PSt) : PSt :=
  match toks[s.cursor]? with
  | some t =>
    if t.ttype = tt then { s with cursor := s.cursor + 1 }
    else { s with errors := s.errors + 1 }
  | none => { s with oob := true, errors := s.errors + 1 }

/-- `Parser::parse_id`. -/
def pId (s : PSt) : PSt := pMatch toks .ID s

/-- `Parser::parse_var_declaration`. -/
def pVarDecl (s : PSt) : PSt := pId toks (pMatch toks .I_TYPE s)

/-- `Parser::parse_boolean_operation` (the dispatch reads
`current_token->type`; a read past the end sets `oob`). -/
def pBoolOp (s : PSt) : PSt :=
  match toks[s.cursor]? with
  | some t =>
    match t.ttype with
    | .EQUALITY_OP => pMatch toks .EQUALITY_OP s
    | .INEQUALITY_OP => pMatch toks .INEQUALITY_OP s
    | _ => { s with errors := s.errors + 1 }
  | none => { s with oob := true, errors := s.errors + 1 }

/-- The `while (current_token->type == TokenType::CHAR) match(..)` loop of
`Parser::parse_char_list`. -/
def pCharsLoop (s : PSt) : PSt :=
  match h : toks[s.cursor]? with
  | some t =>
    if t.ttype = .CHAR then pCharsLoop { s with cursor := s.cursor + 1 }
    else s
  | none => { s with oob := true }
termination_by toks.length - s.cursor
decreasing_by
  have : s.cursor < toks.length := by
    by_contra hge
    rw [List.getElem?_eq_none (by omega : toks.length ≤ s.cursor)] at h
    cases h
  simp
  omega

/-- `Parser::parse_char_list`: one mandatory `CHAR` then the loop. -/
def pCharList (s : PSt) : PSt := pCharsLoop toks (pMatch toks .CHAR s)

/-- `Parser::parse_string_expression`.  The `QUOTE`-or-char-list test reads
the current token; at end of input the read is recorded in `oob` and
treated as not-a-quote. -/
def pStringExpr (s : PSt) : PSt :=
  match toks[(pMatch toks .QUOTE s).cursor]? with
  | some t =>
    if t.ttype = .QUOTE then pMatch toks .QUOTE (pMatch toks .QUOTE s)
    else pMatch toks .QUOTE (pCharList toks (pMatch toks .QUOTE s))
  | none =>
    pMatch toks .QUOTE (pCharList toks { pMatch toks .QUOTE s with oob := true })

mutual

/-- `Parser::parse_expression`. -/
def pExpr : Nat → PSt → PSt
  | 0, s => { s with fuelOut := true }
  | n + 1, s =>
    match toks[s.cursor]? with
    | some t =>
      match t.ttype with
      | .NUMBER => pIntExpr n s
      | .QUOTE => pStringExpr toks s
      | .BOOL_VAL => pBoolExpr n s
      | .OPEN_PARENTHESIS => pBoolExpr n s
      | .ID => pId toks s
      | _ => { s with errors := s.errors + 1 }
    | none => { s with oob := true, errors := s.errors + 1 }

/-- `Parser::parse_int_expression`. -/
def pIntExpr : Nat → PSt → PSt
  | 0, s => { s with fuelOut := true }
  | n + 1, s =>
    match toks[(pMatch toks .NUMBER s).cursor]? with
    | some t =>
      if t.ttype = .INT_OP then
        pExpr n (pMatch toks .INT_OP (pMatch toks .NUMBER s))
      else pMatch toks .NUMBER s
    | none => { pMatch toks .NUMBER s with oob := true }

/-- `Parser::parse_boolean_expression`. -/
def pBoolExpr : Nat → PSt → PSt
  | 0, s => { s with fuelOut := true }
  | n + 1, s =>
    match toks[s.cursor]? with
    | some t =>
      match t.ttype with
      | .OPEN_PARENTHESIS =>
        pMatch toks .CLOSE_PARENTHESIS
          (pExpr n (pBoolOp toks (pExpr n (pMatch toks .OPEN_PARENTHESIS s))))
      | .BOOL_VAL => pMatch toks .BOOL_VAL s
      | _ => { s with errors := s.errors + 1 }
    | none => { s with oob := true, errors := s.errors + 1 }

/-- `Parser::parse_print_statement`. -/
def pPrint : Nat → PSt → PSt
  | 0, s => { s with fuelOut := true }
  | n + 1, s =>
    pMatch toks .CLOSE_PARENTHESIS
      (pExpr n (pMatch toks .OPEN_PARENTHESIS (pMatch toks .PRINT s)))

/-- `Parser::parse_assignment_statement`. -/
def pAssign : Nat → PSt → PSt
  | 0, s => { s with fuelOut := true }
  | n + 1, s => pExpr n (pMatch toks .ASSIGN_OP (pId toks s))

/-- `Parser::parse_while_statement`. -/
def pWhile : Nat → PSt → PSt
  | 0, s => { s with fuelOut := true }
  | n + 1, s => pBlock n (pBoolExpr n (pMatch toks .WHILE s))

/-- `Parser::parse_if_statement`. -/
def pIf : Nat → PSt → PSt
  | 0, s => { s with fuelOut := true }
  | n + 1, s => pBlock n (pBoolExpr n (pMatch toks .IF s))

/-- `Parser::parse_statement`. -/
def pStmt : Nat → PSt → PSt
  | 0, s => { s with fuelOut := true }
  | n + 1, s =>
    match toks[s.cursor]? with
    | some t =>
      match t.ttype with
      | .PRINT => pPrint n s
      | .ID => pAssign n s
      | .I_TYPE => pVarDecl toks s
      | .WHILE => pWhile n s
      | .IF => pIf n s
      | .OPEN_BLOCK => pBlock n s
      | _ => { s with errors := s.errors + 1 }
    | none => { s with oob := true, errors := s.errors + 1 }

/-- `Parser::parse_statement_list`: a statement then the rest of the list
on the statement-start kinds, stop on `CLOSE_BLOCK`, mismatch otherwise. -/
def pStmtList : Nat → PSt → PSt
  | 0, s => { s with fuelOut := true }
  | n + 1, s =>
    match toks[s.cursor]? with
    | some t =>
      match t.ttype with
      | .PRINT => pStmtList n (pStmt n s)
      | .ID => pStmtList n (pStmt n s)
      | .I_TYPE => pStmtList n (pStmt n s)
      | .WHILE => pStmtList n (pStmt n s)
      | .IF => pStmtList n (pStmt n s)
      | .OPEN_BLOCK => pStmtList n (pStmt n s)
      | .CLOSE_BLOCK => s
      | _ => { s with errors := s.errors + 1 }
    | none => { s with oob := true, errors := s.errors + 1 }

/-- `Parser::parse_block`. -/
def pBlock : Nat → PSt → PSt
  | 0, s => { s with fuelOut := true }
  | n + 1, s => pMatch toks .CLOSE_BLOCK (pStmtList n (pMatch toks .OPEN_BLOCK s))

end

/-- `Parser::parse_program`: the program block followed by `match(EOP)`. -/
def pProgram : Nat → PSt → PSt
  | 0, s => { s with fuelOut := true }
  | n + 1, s => pMatch toks .EOP (pBlock toks n s)

/-- `Parser::parse()`: reset `error_count`, run `parse_program`; the parse
fails (`std::nullopt`) exactly when errors were counted. -/
def pParse (fuel : Nat) : Option Unit × PSt :=
  let s := pProgram toks fuel ⟨0, 0, false, false⟩
  if 0 < s.errors then (none, s) else (some (), s)

end ParserDefs

section ParserLemmas

variable (toks : List Token)

/-- `match` either leaves the cursor alone (mismatch / end of input) or
consumes exactly one in-bounds token; it never touches the fuel flag. -/
theorem pMatch_cases (tt : TokenType) (s : PSt) :
    (pMatch toks tt s).fuelOut = s.fuelOut ∧
    ((pMatch toks tt s).cursor = s.cursor ∨
      ((pMatch toks tt s).cursor = s.cursor + 1 ∧ s.cursor < toks.length)) := by
  unfold pMatch
  cases h : toks[s.cursor]? with
  | none => exact ⟨rfl, Or.inl rfl⟩
  | some t =>
    simp only []
    by_cases ht : t.ttype = tt
    · rw [if_pos ht]
      exact ⟨rfl, Or.inr ⟨rfl, (List.getElem?_eq_some.mp h).1⟩⟩
    · rw [if_neg ht]
      exact ⟨rfl, Or.inl rfl⟩

theorem pMatch_mono (tt : TokenType) (s : PSt) :
    s.cursor ≤ (pMatch toks tt s).cursor := by
  rcases (pMatch_cases toks tt s).2 with h | h
  · omega
  · omega

theorem pMatch_le (tt : TokenType) (s : PSt) (hL : s.cursor ≤ toks.length) :
    (pMatch toks tt s).cursor ≤ toks.length := by
  rcases (pMatch_cases toks tt s).2 with h | h
  · omega
  · omega

theorem pMatch_fuel (tt : TokenType) (s : PSt) :
    (pMatch toks tt s).fuelOut = s.fuelOut :=
  (pMatch_cases toks tt s).1

theorem pMatch_consume (tt : TokenType) (s : PSt) (t : Token)
    (h : toks[s.cursor]? = some t) (ht : t.ttype = tt) :
    (pMatch toks tt s).cursor = s.cursor + 1 := by
  unfold pMatch
  rw [h]
  simp [ht]

/-- Bundled cursor facts used for the recursive-descent functions:
monotone cursor, bounded cursor, untouched fuel flag. -/
def PFacts (f : PSt → PSt) : Prop :=
  ∀ s : PSt, s.cursor ≤ (f s).cursor ∧
    (s.cursor ≤ toks.length → (f s).cursor ≤ toks.length) ∧
    (f s).fuelOut = s.fuelOut

theorem pMatch_pfacts (tt : TokenType) : PFacts toks (pMatch toks tt) :=
  fun s => ⟨pMatch_mono toks tt s, pMatch_le toks tt s, pMatch_fuel toks tt s⟩

theorem pfacts_comp {f g : PSt → PSt} (hf : PFacts toks f) (hg : PFacts toks g) :
    PFacts toks (fun s => g (f s)) := by
  intro s
  obtain ⟨hf1, hf2, hf3⟩ := hf s
  obtain ⟨hg1, hg2, hg3⟩ := hg (f s)
  exact ⟨le_trans hf1 hg1, fun hL => hg2 (hf2 hL), by rw [hg3, hf3]⟩

theorem pId_pfacts : PFacts toks (pId toks) :=
  pMatch_pfacts toks .ID

theorem pVarDecl_pfacts : PFacts toks (pVarDecl toks) := by
  have := pfacts_comp toks (pMatch_pfacts toks .I_TYPE) (pId_pfacts toks)
  intro s
  exact this s

theorem pBoolOp_pfacts : PFacts toks (pBoolOp toks) := by
  intro s
  unfold pBoolOp
  cases h : toks[s.cursor]? with
  | none => exact ⟨le_refl _, fun hL => hL, rfl⟩
  | some t =>
    obtain ⟨tt0, v0, l0⟩ := t
    cases tt0 <;>
      first
        | exact (pMatch_pfacts toks .EQUALITY_OP) s
        | exact (pMatch_pfacts toks .INEQUALITY_OP) s
        | exact ⟨le_refl _, fun hL => hL, rfl⟩

theorem pCharsLoop_pfacts : PFacts toks (pCharsLoop toks) := by
  intro s
  induction s using pCharsLoop.induct toks with
  | case1 s t h ht ih =>
    rw [pCharsLoop]
    rw [h]
    simp only []
    rw [if_pos ht]
    have i1 : s.cursor + 1 ≤ (pCharsLoop toks { s with cursor := s.cursor + 1 }).cursor :=
      ih.1
    have i2 : s.cursor + 1 ≤ toks.length →
        (pCharsLoop toks { s with cursor := s.cursor + 1 }).cursor ≤ toks.length :=
      ih.2.1
    have hlt := (List.getElem?_eq_some.mp h).1
    exact ⟨by omega, fun hL => i2 (by omega), ih.2.2⟩
  | case2 s t h ht =>
    rw [pCharsLoop]
    rw [h]
    simp only []
    rw [if_neg ht]
    exact ⟨le_refl _, fun hL => hL, rfl⟩
  | case3 s h =>
    rw [pCharsLoop]
    rw [h]
    exact ⟨le_refl _, fun hL => hL, rfl⟩

theorem pCharList_pfacts : PFacts toks (pCharList toks) := by
  intro s
  exact pfacts_comp toks (pMatch_pfacts toks .CHAR) (pCharsLoop_pfacts toks) s

theorem pStringExpr_pfacts : PFacts toks (pStringExpr toks) := by
  intro s
  unfold pStringExpr
  have h1 := pMatch_pfacts toks .QUOTE s
  cases h : toks[(pMatch toks .QUOTE s).cursor]? with
  | none =>
    have h2 := pCharList_pfacts toks { pMatch toks .QUOTE s with oob := true }
    have h3 := pMatch_pfacts toks .QUOTE
      (pCharList toks { pMatch toks .QUOTE s with oob := true })
    refine ⟨le_trans h1.1 (le_trans h2.1 h3.1), fun hL => h3.2.1 (h2.2.1 (h1.2.1 hL)), ?_⟩
    rw [h3.2.2, h2.2.2]
    exact h1.2.2
  | some t =>
    simp only []
    by_cases ht : t.ttype = .QUOTE
    · rw [if_pos ht]
      have h2 := pMatch_pfacts toks .QUOTE (pMatch toks .QUOTE s)
      exact ⟨le_trans h1.1 h2.1, fun hL => h2.2.1 (h1.2.1 hL), by rw [h2.2.2, h1.2.2]⟩
    · rw [if_neg ht]
      have h2 := pCharList_pfacts toks (pMatch toks .QUOTE s)
      have h3 := pMatch_pfacts toks .QUOTE (pCharList toks (pMatch toks .QUOTE s))
      refine ⟨le_trans h1.1 (le_trans h2.1 h3.1), fun hL => h3.2.1 (h2.2.1 (h1.2.1 hL)), ?_⟩
      rw [h3.2.2, h2.2.2, h1.2.2]

end ParserLemmas

section ParserMono

variable (toks : List Token)

/-- Cursor monotonicity and boundedness for every fuel-indexed parser
function, by induction on the fuel (each level calls the others at one
level less). -/
theorem parserMono (n : Nat) :
    (∀ s : PSt, s.cursor ≤ (pExpr toks n s).cursor ∧
      (s.cursor ≤ toks.length → (pExpr toks n s).cursor ≤ toks.length)) ∧
    (∀ s : PSt, s.cursor ≤ (pIntExpr toks n s).cursor ∧
      (s.cursor ≤ toks.length → (pIntExpr toks n s).cursor ≤ toks.length)) ∧
    (∀ s : PSt, s.cursor ≤ (pBoolExpr toks n s).cursor ∧
      (s.cursor ≤ toks.length → (pBoolExpr toks n s).cursor ≤ toks.length)) ∧
    (∀ s : PSt, s.cursor ≤ (pPrint toks n s).cursor ∧
      (s.cursor ≤ toks.length → (pPrint toks n s).cursor ≤ toks.length)) ∧
    (∀ s : PSt, s.cursor ≤ (pAssign toks n s).cursor ∧
      (s.cursor ≤ toks.length → (pAssign toks n s).cursor ≤ toks.length)) ∧
    (∀ s : PSt, s.cursor ≤ (pWhile toks n s).cursor ∧
      (s.cursor ≤ toks.length → (pWhile toks n s).cursor ≤ toks.length)) ∧
    (∀ s : PSt, s.cursor ≤ (pIf toks n s).cursor ∧
      (s.cursor ≤ toks.length → (pIf toks n s).cursor ≤ toks.length)) ∧
    (∀ s : PSt, s.cursor ≤ (pStmt toks n s).cursor ∧
      (s.cursor ≤ toks.length → (pStmt toks n s).cursor ≤ toks.length)) ∧
    (∀ s : PSt, s.cursor ≤ (pStmtList toks n s).cursor ∧
      (s.cursor ≤ toks.length → (pStmtList toks n s).cursor ≤ toks.length)) ∧
    (∀ s : PSt, s.cursor ≤ (pBlock toks n s).cursor ∧
      (s.cursor ≤ toks.length → (pBlock toks n s).cursor ≤ toks.length)) := by
  induction n with
  | zero =>
    refine ⟨?_, ?_, ?_, ?_, ?_, ?_, ?_, ?_, ?_, ?_⟩ <;> intro s
    · rw [pExpr]; exact ⟨le_refl _, fun h => h⟩
    · rw [pIntExpr]; exact ⟨le_refl _, fun h => h⟩
    · rw [pBoolExpr]; exact ⟨le_refl _, fun h => h⟩
    · rw [pPrint]; exact ⟨le_refl _, fun h => h⟩
    · rw [pAssign]; exact ⟨le_refl _, fun h => h⟩
    · rw [pWhile]; exact ⟨le_refl _, fun h => h⟩
    · rw [pIf]; exact ⟨le_refl _, fun h => h⟩
    · rw [pStmt]; exact ⟨le_refl _, fun h => h⟩
    · rw [pStmtList]; exact ⟨le_refl _, fun h => h⟩
    · rw [pBlock]; exact ⟨le_refl _, fun h => h⟩
  | succ n ih =>
    obtain ⟨iE, iI, iB, iP, iA, iW, iF, iS, iL, iK⟩ := ih
    refine ⟨?_, ?_, ?_, ?_, ?_, ?_, ?_, ?_, ?_, ?_⟩
    · -- parse_expression
      intro s
      rw [pExpr]
      cases h : toks[s.cursor]? with
      | none => exact ⟨le_refl _, fun hL => hL⟩
      | some t =>
        simp only []
        obtain ⟨tt0, v0, l0⟩ := t
        cases tt0 <;>
          first
            | exact iI s
            | exact ⟨(pStringExpr_pfacts toks s).1, (pStringExpr_pfacts toks s).2.1⟩
            | exact iB s
            | exact ⟨(pId_pfacts toks s).1, (pId_pfacts toks s).2.1⟩
            | exact ⟨le_refl _, fun hL => hL⟩
    · -- parse_int_expression
      intro s
      rw [pIntExpr]
      have a1 := pMatch_pfacts toks .NUMBER s
      cases h : toks[(pMatch toks .NUMBER s).cursor]? with
      | none => exact ⟨a1.1, fun hL => a1.2.1 hL⟩
      | some t =>
        simp only []
        by_cases ht : t.ttype = .INT_OP
        · rw [if_pos ht]
          have a2 := pMatch_pfacts toks .INT_OP (pMatch toks .NUMBER s)
          have a3 := iE (pMatch toks .INT_OP (pMatch toks .NUMBER s))
          exact ⟨le_trans a1.1 (le_trans a2.1 a3.1),
            fun hL => a3.2 (a2.2.1 (a1.2.1 hL))⟩
        · rw [if_neg ht]
          exact ⟨a1.1, fun hL => a1.2.1 hL⟩
    · -- parse_boolean_expression
      intro s
      rw [pBoolExpr]
      cases h : toks[s.cursor]? with
      | none => exact ⟨le_refl _, fun hL => hL⟩
      | some t =>
        simp only []
        obtain ⟨tt0, v0, l0⟩ := t
        cases tt0 <;>
          first
            | (refine ?_ ; {
                have a1 := pMatch_pfacts toks .OPEN_PARENTHESIS s
                have a2 := iE (pMatch toks .OPEN_PARENTHESIS s)
                have a3 := pBoolOp_pfacts toks (pExpr toks n (pMatch toks .OPEN_PARENTHESIS s))
                have a4 := iE (pBoolOp toks (pExpr toks n (pMatch toks .OPEN_PARENTHESIS s)))
                have a5 := pMatch_pfacts toks .CLOSE_PARENTHESIS
                  (pExpr toks n (pBoolOp toks (pExpr toks n (pMatch toks .OPEN_PARENTHESIS s))))
                exact ⟨le_trans a1.1 (le_trans a2.1 (le_trans a3.1 (le_trans a4.1 a5.1))),
                  fun hL => a5.2.1 (a4.2 (a3.2.1 (a2.2 (a1.2.1 hL))))⟩ })
            | exact ⟨(pMatch_pfacts toks .BOOL_VAL s).1, fun hL => (pMatch_pfacts toks .BOOL_VAL s).2.1 hL⟩
            | exact ⟨le_refl _, fun hL => hL⟩
    · -- parse_print_statement
      intro s
      rw [pPrint]
      have a1 := pMatch_pfacts toks .PRINT s
      have a2 := pMatch_pfacts toks .OPEN_PARENTHESIS (pMatch toks .PRINT s)
      have a3 := iE (pMatch toks .OPEN_PARENTHESIS (pMatch toks .PRINT s))
      have a4 := pMatch_pfacts toks .CLOSE_PARENTHESIS
        (pExpr toks n (pMatch toks .OPEN_PARENTHESIS (pMatch toks .PRINT s)))
      exact ⟨le_trans a1.1 (le_trans a2.1 (le_trans a3.1 a4.1)),
        fun hL => a4.2.1 (a3.2 (a2.2.1 (a1.2.1 hL)))⟩
    · -- parse_assignment_statement
      intro s
      rw [pAssign]
      have a1 := pId_pfacts toks s
      have a2 := pMatch_pfacts toks .ASSIGN_OP (pId toks s)
      have a3 := iE (pMatch toks .ASSIGN_OP (pId toks s))
      exact ⟨le_trans a1.1 (le_trans a2.1 a3.1), fun hL => a3.2 (a2.2.1 (a1.2.1 hL))⟩
    · -- parse_while_statement
      intro s
      rw [pWhile]
      have a1 := pMatch_pfacts toks .WHILE s
      have a2 := iB (pMatch toks .WHILE s)
      have a3 := iK (pBoolExpr toks n (pMatch toks .WHILE s))
      exact ⟨le_trans a1.1 (le_trans a2.1 a3.1), fun hL => a3.2 (a2.2 (a1.2.1 hL))⟩
    · -- parse_if_statement
      intro s
      rw [pIf]
      have a1 := pMatch_pfacts toks .IF s
      have a2 := iB (pMatch toks .IF s)
      have a3 := iK (pBoolExpr toks n (pMatch toks .IF s))
      exact ⟨le_trans a1.1 (le_trans a2.1 a3.1), fun hL => a3.2 (a2.2 (a1.2.1 hL))⟩
    · -- parse_statement
      intro s
      rw [pStmt]
      cases h : toks[s.cursor]? with
      | none => exact ⟨le_refl _, fun hL => hL⟩
      | some t =>
        simp only []
        obtain ⟨tt0, v0, l0⟩ := t
        cases tt0 <;>
          first
            | exact iP s
            | exact iA s
            | exact ⟨(pVarDecl_pfacts toks s).1, fun hL => (pVarDecl_pfacts toks s).2.1 hL⟩
            | exact iW s
            | exact iF s
            | exact iK s
            | exact ⟨le_refl _, fun hL => hL⟩
    · -- parse_statement_list
      intro s
      rw [pStmtList]
      cases h : toks[s.cursor]? with
      | none => exact ⟨le_refl _, fun hL => hL⟩
      | some t =>
        simp only []
        obtain ⟨tt0, v0, l0⟩ := t
        cases tt0 <;>
          first
            | (refine ?_ ; {
                have b1 := iS s
                have b2 := iL (pStmt toks n s)
                exact ⟨le_trans b1.1 b2.1, fun hL => b2.2 (b1.2 hL)⟩ })
            | exact ⟨le_refl _, fun hL => hL⟩
    · -- parse_block
      intro s
      rw [pBlock]
      have a1 := pMatch_pfacts toks .OPEN_BLOCK s
      have a2 := iL (pMatch toks .OPEN_BLOCK s)
      have a3 := pMatch_pfacts toks .CLOSE_BLOCK (pStmtList toks n (pMatch toks .OPEN_BLOCK s))
      exact ⟨le_trans a1.1 (le_trans a2.1 a3.1), fun hL => a3.2.1 (a2.2 (a1.2.1 hL))⟩

end ParserMono

section ParserTermination

variable (toks : List Token)

theorem pMatch_stay_some (tt : TokenType) (s : PSt) (t : Token)
    (h : toks[s.cursor]? = some t) (ht : t.ttype ≠ tt) :
    (pMatch toks tt s).cursor = s.cursor := by
  unfold pMatch
  rw [h]
  simp [ht]

theorem pMatch_stay_none (tt : TokenType) (s : PSt)
    (h : toks[s.cursor]? = none) :
    (pMatch toks tt s).cursor = s.cursor := by
  unfold pMatch
  rw [h]

/-- The kind of the token at an index, when in bounds. -/
def tokTypeAt (i : Nat) : Option TokenType :=
  (toks[i]?).map (fun t => t.ttype)

/-- Fuel rank of `parse_block` at a state: small when the dispatchable
`OPEN_BLOCK` sits at the cursor (the first `match` then consumes it). -/
def rankBlock (s : PSt) : Nat :=
  if tokTypeAt toks s.cursor = some .OPEN_BLOCK then 2 else 8

/-- Fuel rank of `parse_while_statement`. -/
def rankWhile (s : PSt) : Nat :=
  if tokTypeAt toks s.cursor = some .WHILE then 2 else 10

/-- Fuel rank of `parse_if_statement`. -/
def rankIf (s : PSt) : Nat :=
  if tokTypeAt toks s.cursor = some .IF then 2 else 10

theorem rankBlock_ge (s : PSt) : 2 ≤ rankBlock toks s := by
  unfold rankBlock
  split <;> omega

theorem rankBlock_le (s : PSt) : rankBlock toks s ≤ 8 := by
  unfold rankBlock
  split <;> omega

theorem rankWhile_ge (s : PSt) : 2 ≤ rankWhile toks s := by
  unfold rankWhile
  split <;> omega

theorem rankIf_ge (s : PSt) : 2 ≤ rankIf toks s := by
  unfold rankIf
  split <;> omega

/-- Strictness: each statement rule, entered with its dispatch token at the
cursor, consumes at least that token (the leading `match` succeeds). -/
theorem pPrint_strict (n : Nat) (s : PSt) (t : Token)
    (h : toks[s.cursor]? = some t) (ht : t.ttype = .PRINT) :
    s.cursor < (pPrint toks (n + 1) s).cursor := by
  rw [pPrint]
  have h1 := pMatch_consume toks .PRINT s t h ht
  have a2 := pMatch_pfacts toks .OPEN_PARENTHESIS (pMatch toks .PRINT s)
  have a3 := ((parserMono toks n).1 (pMatch toks .OPEN_PARENTHESIS (pMatch toks .PRINT s))).1
  have a4 := (pMatch_pfacts toks .CLOSE_PARENTHESIS
    (pExpr toks n (pMatch toks .OPEN_PARENTHESIS (pMatch toks .PRINT s)))).1
  have a2' := a2.1
  omega

theorem pAssign_strict (n : Nat) (s : PSt) (t : Token)
    (h : toks[s.cursor]? = some t) (ht : t.ttype = .ID) :
    s.cursor < (pAssign toks (n + 1) s).cursor := by
  rw [pAssign]
  have h1 := pMatch_consume toks .ID s t h ht
  have a2 := (pMatch_pfacts toks .ASSIGN_OP (pId toks s)).1
  have a3 := ((parserMono toks n).1 (pMatch toks .ASSIGN_OP (pId toks s))).1
  have h1' : (pId toks s).cursor = s.cursor + 1 := h1
  omega

theorem pVarDecl_strict (s : PSt) (t : Token)
    (h : toks[s.cursor]? = some t) (ht : t.ttype = .I_TYPE) :
    s.cursor < (pVarDecl toks s).cursor := by
  unfold pVarDecl
  have h1 := pMatch_consume toks .I_TYPE s t h ht
  have a2 := (pId_pfacts toks (pMatch toks .I_TYPE s)).1
  omega

theorem pWhile_strict (n : Nat) (s : PSt) (t : Token)
    (h : toks[s.cursor]? = some t) (ht : t.ttype = .WHILE) :
    s.cursor < (pWhile toks (n + 1) s).cursor := by
  rw [pWhile]
  have h1 := pMatch_consume toks .WHILE s t h ht
  obtain ⟨mE, mI, mB, mP, mA, mW, mF, mS, mL, mK⟩ := parserMono toks n
  have a2 := (mB (pMatch toks .WHILE s)).1
  have a3 := (mK (pBoolExpr toks n (pMatch toks .WHILE s))).1
  omega

theorem pIf_strict (n : Nat) (s : PSt) (t : Token)
    (h : toks[s.cursor]? = some t) (ht : t.ttype = .IF) :
    s.cursor < (pIf toks (n + 1) s).cursor := by
  rw [pIf]
  have h1 := pMatch_consume toks .IF s t h ht
  obtain ⟨mE, mI, mB, mP, mA, mW, mF, mS, mL, mK⟩ := parserMono toks n
  have a2 := (mB (pMatch toks .IF s)).1
  have a3 := (mK (pBoolExpr toks n (pMatch toks .IF s))).1
  omega

theorem pBlock_strict (n : Nat) (s : PSt) (t : Token)
    (h : toks[s.cursor]? = some t) (ht : t.ttype = .OPEN_BLOCK) :
    s.cursor < (pBlock toks (n + 1) s).cursor := by
  rw [pBlock]
  have h1 := pMatch_consume toks .OPEN_BLOCK s t h ht
  obtain ⟨mE, mI, mB, mP, mA, mW, mF, mS, mL, mK⟩ := parserMono toks n
  have a2 := (mL (pMatch toks .OPEN_BLOCK s)).1
  have a3 := (pMatch_pfacts toks .CLOSE_BLOCK
    (pStmtList toks n (pMatch toks .OPEN_BLOCK s))).1
  omega

/-- Strictness of `parse_statement` on the statement-start kinds. -/
theorem pStmt_strict (n : Nat) (s : PSt) (t : Token)
    (h : toks[s.cursor]? = some t)
    (ht : t.ttype = .PRINT ∨ t.ttype = .ID ∨ t.ttype = .I_TYPE ∨
      t.ttype = .WHILE ∨ t.ttype = .IF ∨ t.ttype = .OPEN_BLOCK) :
    s.cursor < (pStmt toks (n + 2) s).cursor := by
  rw [pStmt]
  rw [h]
  simp only []
  rcases ht with ht | ht | ht | ht | ht | ht <;> rw [ht]
  · exact pPrint_strict toks n s t h ht
  · exact pAssign_strict toks n s t h ht
  · exact pVarDecl_strict toks s t h ht
  · exact pWhile_strict toks n s t h ht
  · exact pIf_strict toks n s t h ht
  · exact pBlock_strict toks n s t h ht

end ParserTermination

section ParserCompletion

variable (toks : List Token)

theorem tokTypeAt_eq (i : Nat) :
    tokTypeAt toks i = (toks[i]?).map (fun t => t.ttype) := rfl

theorem tokTypeAt_some (i : Nat) (tt : TokenType)
    (h : tokTypeAt toks i = some tt) :
    ∃ t, toks[i]? = some t ∧ t.ttype = tt := by
  rw [tokTypeAt_eq] at h
  cases h' : toks[i]? with
  | none =>
    rw [h'] at h
    have h2 : (none : Option TokenType) = some tt := h
    cases h2
  | some t =>
    rw [h'] at h
    have h2 : some t.ttype = some tt := h
    exact ⟨t, rfl, Option.some.inj h2⟩

theorem tokTypeAt_lt (i : Nat) (tt : TokenType)
    (h : tokTypeAt toks i = some tt) : i < toks.length := by
  obtain ⟨t, h', _⟩ := tokTypeAt_some toks i tt h
  exact (List.getElem?_eq_some.mp h').1

/-- With the expected kind at the cursor, `match` consumes it. -/
theorem pMatch_consume_at (tt : TokenType) (s : PSt)
    (h : tokTypeAt toks s.cursor = some tt) :
    (pMatch toks tt s).cursor = s.cursor + 1 ∧ s.cursor < toks.length := by
  obtain ⟨t, h', ht⟩ := tokTypeAt_some toks s.cursor tt h
  exact ⟨pMatch_consume toks tt s t h' ht, (List.getElem?_eq_some.mp h').1⟩

/-- Without the expected kind at the cursor, `match` does not move. -/
theorem pMatch_stay_at (tt : TokenType) (s : PSt)
    (h : tokTypeAt toks s.cursor ≠ some tt) :
    (pMatch toks tt s).cursor = s.cursor := by
  cases h' : toks[s.cursor]? with
  | none => exact pMatch_stay_none toks tt s h'
  | some t =>
    refine pMatch_stay_some toks tt s t h' ?_
    intro hc
    apply h
    rw [tokTypeAt_eq, h']
    show some t.ttype = some tt
    rw [hc]

/-- Fuel sufficiency: each recursive-descent rule runs to completion — never
raising the fuel-exhaustion flag — whenever the fuel is at least twelve per
unread token plus the rule's constant rank, by induction on the fuel.  The
C++ has no fuel; this says its recursion depth is bounded by the same
quantity, i.e. every rule terminates on every token sequence. -/
theorem parserComplete (n : Nat) :
    (∀ s : PSt, s.fuelOut = false → s.cursor ≤ toks.length →
      12 * (toks.length - s.cursor) + 4 ≤ n → (pExpr toks n s).fuelOut = false) ∧
    (∀ s : PSt, s.fuelOut = false → s.cursor ≤ toks.length →
      12 * (toks.length - s.cursor) + 1 ≤ n → (pIntExpr toks n s).fuelOut = false) ∧
    (∀ s : PSt, s.fuelOut = false → s.cursor ≤ toks.length →
      12 * (toks.length - s.cursor) + 3 ≤ n → (pBoolExpr toks n s).fuelOut = false) ∧
    (∀ s : PSt, s.fuelOut = false → s.cursor ≤ toks.length →
      12 * (toks.length - s.cursor) + 5 ≤ n → (pPrint toks n s).fuelOut = false) ∧
    (∀ s : PSt, s.fuelOut = false → s.cursor ≤ toks.length →
      12 * (toks.length - s.cursor) + 5 ≤ n → (pAssign toks n s).fuelOut = false) ∧
    (∀ s : PSt, s.fuelOut = false → s.cursor ≤ toks.length →
      12 * (toks.length - s.cursor) + rankWhile toks s ≤ n →
      (pWhile toks n s).fuelOut = false) ∧
    (∀ s : PSt, s.fuelOut = false → s.cursor ≤ toks.length →
      12 * (toks.length - s.cursor) + rankIf toks s ≤ n →
      (pIf toks n s).fuelOut = false) ∧
    (∀ s : PSt, s.fuelOut = false → s.cursor ≤ toks.length →
      12 * (toks.length - s.cursor) + 6 ≤ n → (pStmt toks n s).fuelOut = false) ∧
    (∀ s : PSt, s.fuelOut = false → s.cursor ≤ toks.length →
      12 * (toks.length - s.cursor) + 7 ≤ n → (pStmtList toks n s).fuelOut = false) ∧
    (∀ s : PSt, s.fuelOut = false → s.cursor ≤ toks.length →
      12 * (toks.length - s.cursor) + rankBlock toks s ≤ n →
      (pBlock toks n s).fuelOut = false) := by
  induction n with
  | zero =>
    refine ⟨?_, ?_, ?_, ?_, ?_, ?_, ?_, ?_, ?_, ?_⟩ <;> intro s hf hL hn
    · omega
    · omega
    · omega
    · omega
    · omega
    · have := rankWhile_ge toks s; omega
    · have := rankIf_ge toks s; omega
    · omega
    · omega
    · have := rankBlock_ge toks s; omega
  | succ n ih =>
    obtain ⟨iE, iI, iB, iP, iA, iW, iF, iS, iL, iK⟩ := ih
    obtain ⟨mE, mI, mB, mP, mA, mW, mF, mS, mL, mK⟩ := parserMono toks n
    refine ⟨?_, ?_, ?_, ?_, ?_, ?_, ?_, ?_, ?_, ?_⟩
    · -- parse_expression
      intro s hf hL hn
      rw [pExpr]
      cases h : toks[s.cursor]? with
      | none => exact hf
      | some t =>
        simp only []
        obtain ⟨tt0, v0, l0⟩ := t
        cases tt0 <;>
          first
            | exact iI s hf hL (by omega)
            | (rw [(pStringExpr_pfacts toks s).2.2]; exact hf)
            | exact iB s hf hL (by omega)
            | (rw [(pId_pfacts toks s).2.2]; exact hf)
            | exact hf
    · -- parse_int_expression
      intro s hf hL hn
      rw [pIntExpr]
      have a1 := pMatch_pfacts toks .NUMBER s
      cases h : toks[(pMatch toks .NUMBER s).cursor]? with
      | none =>
        show (pMatch toks .NUMBER s).fuelOut = false
        rw [a1.2.2]
        exact hf
      | some t =>
        simp only []
        by_cases ht : t.ttype = .INT_OP
        · rw [if_pos ht]
          have hcons := pMatch_consume toks .INT_OP (pMatch toks .NUMBER s) t h ht
          have hlt : (pMatch toks .NUMBER s).cursor < toks.length :=
            (List.getElem?_eq_some.mp h).1
          have a2 := pMatch_pfacts toks .INT_OP (pMatch toks .NUMBER s)
          have a1' := a1.1
          refine iE _ ?_ (by omega) (by omega)
          rw [a2.2.2, a1.2.2]
          exact hf
        · rw [if_neg ht]
          rw [a1.2.2]
          exact hf
    · -- parse_boolean_expression
      intro s hf hL hn
      rw [pBoolExpr]
      cases h : toks[s.cursor]? with
      | none => exact hf
      | some t =>
        simp only []
        obtain ⟨tt0, v0, l0⟩ := t
        cases tt0 <;>
          first
            | (refine ?_ ; {
                have hcons : (pMatch toks .OPEN_PARENTHESIS s).cursor = s.cursor + 1 :=
                  pMatch_consume toks .OPEN_PARENTHESIS s _ h rfl
                have hlt : s.cursor < toks.length := (List.getElem?_eq_some.mp h).1
                have a1 := pMatch_pfacts toks .OPEN_PARENTHESIS s
                have hE1 : (pExpr toks n (pMatch toks .OPEN_PARENTHESIS s)).fuelOut = false :=
                  iE _ (a1.2.2.trans hf) (by omega) (by omega)
                have b1 := mE (pMatch toks .OPEN_PARENTHESIS s)
                have b1' := b1.1
                have a2 := pBoolOp_pfacts toks (pExpr toks n (pMatch toks .OPEN_PARENTHESIS s))
                have a2' := a2.1
                have hE2 : (pExpr toks n (pBoolOp toks
                    (pExpr toks n (pMatch toks .OPEN_PARENTHESIS s)))).fuelOut = false :=
                  iE _ (a2.2.2.trans hE1) (a2.2.1 (b1.2 (by omega))) (by omega)
                rw [(pMatch_pfacts toks .CLOSE_PARENTHESIS _).2.2]
                exact hE2 })
            | (rw [(pMatch_pfacts toks .BOOL_VAL s).2.2]; exact hf)
            | exact hf
    · -- parse_print_statement
      intro s hf hL hn
      rw [pPrint]
      have a1 := pMatch_pfacts toks .PRINT s
      have a2 := pMatch_pfacts toks .OPEN_PARENTHESIS (pMatch toks .PRINT s)
      have a1' := a1.1
      have a2' := a2.1
      have hE : (pExpr toks n (pMatch toks .OPEN_PARENTHESIS (pMatch toks .PRINT s))).fuelOut
          = false := by
        refine iE _ ?_ (a2.2.1 (a1.2.1 hL)) (by omega)
        rw [a2.2.2, a1.2.2]
        exact hf
      rw [(pMatch_pfacts toks .CLOSE_PARENTHESIS _).2.2]
      exact hE
    · -- parse_assignment_statement
      intro s hf hL hn
      rw [pAssign]
      have a1 := pId_pfacts toks s
      have a2 := pMatch_pfacts toks .ASSIGN_OP (pId toks s)
      have a1' := a1.1
      have a2' := a2.1
      refine iE _ ?_ (a2.2.1 (a1.2.1 hL)) (by omega)
      rw [a2.2.2, a1.2.2]
      exact hf
    · -- parse_while_statement
      intro s hf hL hn
      rw [pWhile]
      have a1 := pMatch_pfacts toks .WHILE s
      by_cases hw : tokTypeAt toks s.cursor = some .WHILE
      · have hrank : rankWhile toks s = 2 := by unfold rankWhile; rw [if_pos hw]
        rw [hrank] at hn
        obtain ⟨hcons, hlt⟩ := pMatch_consume_at toks .WHILE s hw
        have hB : (pBoolExpr toks n (pMatch toks .WHILE s)).fuelOut = false :=
          iB _ (a1.2.2.trans hf) (by omega) (by omega)
        have b1 := mB (pMatch toks .WHILE s)
        have b1' := b1.1
        have hrb := rankBlock_le toks (pBoolExpr toks n (pMatch toks .WHILE s))
        exact iK _ hB (b1.2 (by omega)) (by omega)
      · have hrank : rankWhile toks s = 10 := by unfold rankWhile; rw [if_neg hw]
        rw [hrank] at hn
        have hstay := pMatch_stay_at toks .WHILE s hw
        have hB : (pBoolExpr toks n (pMatch toks .WHILE s)).fuelOut = false :=
          iB _ (a1.2.2.trans hf) (by omega) (by omega)
        have b1 := mB (pMatch toks .WHILE s)
        have b1' := b1.1
        have hrb := rankBlock_le toks (pBoolExpr toks n (pMatch toks .WHILE s))
        exact iK _ hB (b1.2 (by omega)) (by omega)
    · -- parse_if_statement
      intro s hf hL hn
      rw [pIf]
      have a1 := pMatch_pfacts toks .IF s
      by_cases hw : tokTypeAt toks s.cursor = some .IF
      · have hrank : rankIf toks s = 2 := by unfold rankIf; rw [if_pos hw]
        rw [hrank] at hn
        obtain ⟨hcons, hlt⟩ := pMatch_consume_at toks .IF s hw
        have hB : (pBoolExpr toks n (pMatch toks .IF s)).fuelOut = false :=
          iB _ (a1.2.2.trans hf) (by omega) (by omega)
        have b1 := mB (pMatch toks .IF s)
        have b1' := b1.1
        have hrb := rankBlock_le toks (pBoolExpr toks n (pMatch toks .IF s))
        exact iK _ hB (b1.2 (by omega)) (by omega)
      · have hrank : rankIf toks s = 10 := by unfold rankIf; rw [if_neg hw]
        rw [hrank] at hn
        have hstay := pMatch_stay_at toks .IF s hw
        have hB : (pBoolExpr toks n (pMatch toks .IF s)).fuelOut = false :=
          iB _ (a1.2.2.trans hf) (by omega) (by omega)
        have b1 := mB (pMatch toks .IF s)
        have b1' := b1.1
        have hrb := rankBlock_le toks (pBoolExpr toks n (pMatch toks .IF s))
        exact iK _ hB (b1.2 (by omega)) (by omega)
    · -- parse_statement
      intro s hf hL hn
      rw [pStmt]
      cases h : toks[s.cursor]? with
      | none => exact hf
      | some t =>
        simp only []
        have hlt : s.cursor < toks.length := (List.getElem?_eq_some.mp h).1
        obtain ⟨tt0, v0, l0⟩ := t
        cases tt0 <;>
          first
            | exact iP s hf hL (by omega)
            | exact iA s hf hL (by omega)
            | (rw [(pVarDecl_pfacts toks s).2.2]; exact hf)
            | (refine iW s hf hL ?_ ;
               have hr : rankWhile toks s = 2 := by
                 unfold rankWhile
                 rw [if_pos (by rw [tokTypeAt_eq, h]; rfl)]
               omega)
            | (refine iF s hf hL ?_ ;
               have hr : rankIf toks s = 2 := by
                 unfold rankIf
                 rw [if_pos (by rw [tokTypeAt_eq, h]; rfl)]
               omega)
            | (refine iK s hf hL ?_ ;
               have hr : rankBlock toks s = 2 := by
                 unfold rankBlock
                 rw [if_pos (by rw [tokTypeAt_eq, h]; rfl)]
               omega)
            | exact hf
    · -- parse_statement_list
      intro s hf hL hn
      rw [pStmtList]
      cases h : toks[s.cursor]? with
      | none => exact hf
      | some t =>
        simp only []
        have hlt : s.cursor < toks.length := (List.getElem?_eq_some.mp h).1
        obtain ⟨tt0, v0, l0⟩ := t
        cases tt0 <;>
          first
            | (refine ?_ ; {
                have hS : (pStmt toks n s).fuelOut = false := iS s hf hL (by omega)
                obtain ⟨m, hm⟩ : ∃ m, n = m + 2 := ⟨n - 2, by omega⟩
                subst hm
                have hstrict := pStmt_strict toks m s _ h
                  (by first
                    | exact Or.inl rfl
                    | exact Or.inr (Or.inl rfl)
                    | exact Or.inr (Or.inr (Or.inl rfl))
                    | exact Or.inr (Or.inr (Or.inr (Or.inl rfl)))
                    | exact Or.inr (Or.inr (Or.inr (Or.inr (Or.inl rfl))))
                    | exact Or.inr (Or.inr (Or.inr (Or.inr (Or.inr rfl)))))
                have hmono := mS s
                exact iL _ hS (hmono.2 hL) (by omega) })
            | exact hf
    · -- parse_block
      intro s hf hL hn
      rw [pBlock]
      have a1 := pMatch_pfacts toks .OPEN_BLOCK s
      by_cases hb : tokTypeAt toks s.cursor = some .OPEN_BLOCK
      · have hrank : rankBlock toks s = 2 := by unfold rankBlock; rw [if_pos hb]
        rw [hrank] at hn
        obtain ⟨hcons, hlt⟩ := pMatch_consume_at toks .OPEN_BLOCK s hb
        have hList : (pStmtList toks n (pMatch toks .OPEN_BLOCK s)).fuelOut = false :=
          iL _ (a1.2.2.trans hf) (by omega) (by omega)
        rw [(pMatch_pfacts toks .CLOSE_BLOCK _).2.2]
        exact hList
      · have hrank : rankBlock toks s = 8 := by unfold rankBlock; rw [if_neg hb]
        rw [hrank] at hn
        have hstay := pMatch_stay_at toks .OPEN_BLOCK s hb
        have hList : (pStmtList toks n (pMatch toks .OPEN_BLOCK s)).fuelOut = false :=
          iL _ (a1.2.2.trans hf) (by omega) (by omega)
        rw [(pMatch_pfacts toks .CLOSE_BLOCK _).2.2]
        exact hList

/-- `parse_program` completes within fuel `12·|tokens| + 12` from the
initial parser state. -/
theorem pProgram_complete (n : Nat) (h : 12 * toks.length + 12 ≤ n) :
    (pProgram toks n ⟨0, 0, false, false⟩).fuelOut = false := by
  obtain ⟨m, rfl⟩ : ∃ m, n = m + 1 := ⟨n - 1, by omega⟩
  rw [pProgram]
  have hK := (parserComplete toks m).2.2.2.2.2.2.2.2.2
  have hrb := rankBlock_le toks (⟨0, 0, false, false⟩ : PSt)
  have hB : (pBlock toks m ⟨0, 0, false, false⟩).fuelOut = false :=
    hK ⟨0, 0, false, false⟩ rfl (by simp) (by simp; omega)
  rw [pMatch_fuel]
  exact hB

theorem pParse_snd (f : Nat) :
    (pParse toks f).2 = pProgram toks f ⟨0, 0, false, false⟩ := by
  show (if 0 < (pProgram toks f ⟨0, 0, false, false⟩).errors then
      ((none : Option Unit), pProgram toks f ⟨0, 0, false, false⟩)
    else (some (), pProgram toks f ⟨0, 0, false, false⟩)).2 = _
  split <;> rfl

end ParserCompletion

section ParserOob

/-!  In-bounds reads: with an `EOP` token at index `e`, no parser rule ever
moves the cursor past `e` (the `EOP` never matches a rule's expected kinds,
so the cursor gets stuck at or before it), hence every `current_token` read
is inside the vector. -/

variable (toks : List Token) (e : Nat)

theorem pMatch_poob (he : tokTypeAt toks e = some .EOP)
    (tt : TokenType) (htt : tt ≠ .EOP) (s : PSt)
    (ho : s.oob = false) (hc : s.cursor ≤ e) :
    (pMatch toks tt s).oob = false ∧ (pMatch toks tt s).cursor ≤ e := by
  have heL : e < toks.length := tokTypeAt_lt toks e .EOP he
  unfold pMatch
  cases h : toks[s.cursor]? with
  | none =>
    exfalso
    have := List.getElem?_eq_none_iff.mp h
    omega
  | some t =>
    simp only []
    by_cases ht : t.ttype = tt
    · rw [if_pos ht]
      refine ⟨ho, ?_⟩
      by_cases hce : s.cursor = e
      · exfalso
        obtain ⟨te, he', hte⟩ := tokTypeAt_some toks e .EOP he
        rw [hce, he'] at h
        have h2 : te = t := Option.some.inj h
        rw [← h2, hte] at ht
        exact htt ht.symm
      · show s.cursor + 1 ≤ e
        omega
    · rw [if_neg ht]
      exact ⟨ho, hc⟩

/-- `match` never sets the out-of-bounds flag while the cursor is inside
the vector, whatever the expected kind. -/
theorem pMatch_oob_inbounds (tt : TokenType) (s : PSt)
    (ho : s.oob = false) (hc : s.cursor < toks.length) :
    (pMatch toks tt s).oob = false := by
  unfold pMatch
  cases h : toks[s.cursor]? with
  | none =>
    exfalso
    have := List.getElem?_eq_none_iff.mp h
    omega
  | some t =>
    simp only []
    by_cases ht : t.ttype = tt
    · rw [if_pos ht]; exact ho
    · rw [if_neg ht]; exact ho

theorem pId_poob (he : tokTypeAt toks e = some .EOP) (s : PSt)
    (ho : s.oob = false) (hc : s.cursor ≤ e) :
    (pId toks s).oob = false ∧ (pId toks s).cursor ≤ e :=
  pMatch_poob toks e he .ID (by intro hx; cases hx) s ho hc

theorem pVarDecl_poob (he : tokTypeAt toks e = some .EOP) (s : PSt)
    (ho : s.oob = false) (hc : s.cursor ≤ e) :
    (pVarDecl toks s).oob = false ∧ (pVarDecl toks s).cursor ≤ e := by
  have a1 := pMatch_poob toks e he .I_TYPE (by intro hx; cases hx) s ho hc
  exact pId_poob toks e he _ a1.1 a1.2

theorem pBoolOp_poob (he : tokTypeAt toks e = some .EOP) (s : PSt)
    (ho : s.oob = false) (hc : s.cursor ≤ e) :
    (pBoolOp toks s).oob = false ∧ (pBoolOp toks s).cursor ≤ e := by
  have heL : e < toks.length := tokTypeAt_lt toks e .EOP he
  unfold pBoolOp
  cases h : toks[s.cursor]? with
  | none =>
    exfalso
    have := List.getElem?_eq_none_iff.mp h
    omega
  | some t =>
    simp only []
    obtain ⟨tt0, v0, l0⟩ := t
    cases tt0 <;>
      first
        | exact pMatch_poob toks e he .EQUALITY_OP (by intro hx; cases hx) s ho hc
        | exact pMatch_poob toks e he .INEQUALITY_OP (by intro hx; cases hx) s ho hc
        | exact ⟨ho, hc⟩

theorem pCharsLoop_poob (he : tokTypeAt toks e = some .EOP) (s : PSt) :
    s.oob = false → s.cursor ≤ e →
    (pCharsLoop toks s).oob = false ∧ (pCharsLoop toks s).cursor ≤ e := by
  have heL : e < toks.length := tokTypeAt_lt toks e .EOP he
  induction s using pCharsLoop.induct toks with
  | case1 s t h ht ih =>
    intro ho hc
    rw [pCharsLoop, h]
    simp only []
    rw [if_pos ht]
    refine ih ho ?_
    show s.cursor + 1 ≤ e
    by_cases hce : s.cursor = e
    · exfalso
      obtain ⟨te, he', hte⟩ := tokTypeAt_some toks e .EOP he
      rw [hce, he'] at h
      have h2 : te = t := Option.some.inj h
      rw [← h2, hte] at ht
      cases ht
    · omega
  | case2 s t h ht =>
    intro ho hc
    rw [pCharsLoop, h]
    simp only []
    rw [if_neg ht]
    exact ⟨ho, hc⟩
  | case3 s h =>
    intro ho hc
    exfalso
    have := List.getElem?_eq_none_iff.mp h
    omega

theorem pCharList_poob (he : tokTypeAt toks e = some .EOP) (s : PSt)
    (ho : s.oob = false) (hc : s.cursor ≤ e) :
    (pCharList toks s).oob = false ∧ (pCharList toks s).cursor ≤ e := by
  have a1 := pMatch_poob toks e he .CHAR (by intro hx; cases hx) s ho hc
  exact pCharsLoop_poob toks e he _ a1.1 a1.2

theorem pStringExpr_poob (he : tokTypeAt toks e = some .EOP) (s : PSt)
    (ho : s.oob = false) (hc : s.cursor ≤ e) :
    (pStringExpr toks s).oob = false ∧ (pStringExpr toks s).cursor ≤ e := by
  have heL : e < toks.length := tokTypeAt_lt toks e .EOP he
  have a1 := pMatch_poob toks e he .QUOTE (by intro hx; cases hx) s ho hc
  unfold pStringExpr
  cases h : toks[(pMatch toks .QUOTE s).cursor]? with
  | none =>
    exfalso
    have := List.getElem?_eq_none_iff.mp h
    have := a1.2
    omega
  | some t =>
    simp only []
    by_cases ht : t.ttype = .QUOTE
    · rw [if_pos ht]
      exact pMatch_poob toks e he .QUOTE (by intro hx; cases hx) _ a1.1 a1.2
    · rw [if_neg ht]
      have a2 := pCharList_poob toks e he _ a1.1 a1.2
      exact pMatch_poob toks e he .QUOTE (by intro hx; cases hx) _ a2.1 a2.2

/-- No fuel-indexed parser rule ever sets the out-of-bounds flag or moves
the cursor past an `EOP` token's index, by induction on the fuel. -/
theorem parserOob (he : tokTypeAt toks e = some .EOP) (n : Nat) :
    (∀ s : PSt, s.oob = false → s.cursor ≤ e →
      (pExpr toks n s).oob = false ∧ (pExpr toks n s).cursor ≤ e) ∧
    (∀ s : PSt, s.oob = false → s.cursor ≤ e →
      (pIntExpr toks n s).oob = false ∧ (pIntExpr toks n s).cursor ≤ e) ∧
    (∀ s : PSt, s.oob = false → s.cursor ≤ e →
      (pBoolExpr toks n s).oob = false ∧ (pBoolExpr toks n s).cursor ≤ e) ∧
    (∀ s : PSt, s.oob = false → s.cursor ≤ e →
      (pPrint toks n s).oob = false ∧ (pPrint toks n s).cursor ≤ e) ∧
    (∀ s : PSt, s.oob = false → s.cursor ≤ e →
      (pAssign toks n s).oob = false ∧ (pAssign toks n s).cursor ≤ e) ∧
    (∀ s : PSt, s.oob = false → s.cursor ≤ e →
      (pWhile toks n s).oob = false ∧ (pWhile toks n s).cursor ≤ e) ∧
    (∀ s : PSt, s.oob = false → s.cursor ≤ e →
      (pIf toks n s).oob = false ∧ (pIf toks n s).cursor ≤ e) ∧
    (∀ s : PSt, s.oob = false → s.cursor ≤ e →
      (pStmt toks n s).oob = false ∧ (pStmt toks n s).cursor ≤ e) ∧
    (∀ s : PSt, s.oob = false → s.cursor ≤ e →
      (pStmtList toks n s).oob = false ∧ (pStmtList toks n s).cursor ≤ e) ∧
    (∀ s : PSt, s.oob = false → s.cursor ≤ e →
      (pBlock toks n s).oob = false ∧ (pBlock toks n s).cursor ≤ e) := by
  have heL : e < toks.length := tokTypeAt_lt toks e .EOP he
  induction n with
  | zero =>
    refine ⟨?_, ?_, ?_, ?_, ?_, ?_, ?_, ?_, ?_, ?_⟩ <;> intro s ho hc
    · rw [pExpr]; exact ⟨ho, hc⟩
    · rw [pIntExpr]; exact ⟨ho, hc⟩
    · rw [pBoolExpr]; exact ⟨ho, hc⟩
    · rw [pPrint]; exact ⟨ho, hc⟩
    · rw [pAssign]; exact ⟨ho, hc⟩
    · rw [pWhile]; exact ⟨ho, hc⟩
    · rw [pIf]; exact ⟨ho, hc⟩
    · rw [pStmt]; exact ⟨ho, hc⟩
    · rw [pStmtList]; exact ⟨ho, hc⟩
    · rw [pBlock]; exact ⟨ho, hc⟩
  | succ n ih =>
    obtain ⟨iE, iI, iB, iP, iA, iW, iF, iS, iL, iK⟩ := ih
    refine ⟨?_, ?_, ?_, ?_, ?_, ?_, ?_, ?_, ?_, ?_⟩
    · -- parse_expression
      intro s ho hc
      rw [pExpr]
      cases h : toks[s.cursor]? with
      | none =>
        exfalso
        have := List.getElem?_eq_none_iff.mp h
        omega
      | some t =>
        simp only []
        obtain ⟨tt0, v0, l0⟩ := t
        cases tt0 <;>
          first
            | exact iI s ho hc
            | exact pStringExpr_poob toks e he s ho hc
            | exact iB s ho hc
            | exact pId_poob toks e he s ho hc
            | exact ⟨ho, hc⟩
    · -- parse_int_expression
      intro s ho hc
      rw [pIntExpr]
      have a1 := pMatch_poob toks e he .NUMBER (by intro hx; cases hx) s ho hc
      cases h : toks[(pMatch toks .NUMBER s).cursor]? with
      | none =>
        exfalso
        have := List.getElem?_eq_none_iff.mp h
        have := a1.2
        omega
      | some t =>
        simp only []
        by_cases ht : t.ttype = .INT_OP
        · rw [if_pos ht]
          have a2 := pMatch_poob toks e he .INT_OP (by intro hx; cases hx) _ a1.1 a1.2
          exact iE _ a2.1 a2.2
        · rw [if_neg ht]
          exact a1
    · -- parse_boolean_expression
      intro s ho hc
      rw [pBoolExpr]
      cases h : toks[s.cursor]? with
      | none =>
        exfalso
        have := List.getElem?_eq_none_iff.mp h
        omega
      | some t =>
        simp only []
        obtain ⟨tt0, v0, l0⟩ := t
        cases tt0 <;>
          first
            | (refine ?_ ; {
                have a1 := pMatch_poob toks e he .OPEN_PARENTHESIS
                  (by intro hx; cases hx) s ho hc
                have a2 := iE _ a1.1 a1.2
                have a3 := pBoolOp_poob toks e he _ a2.1 a2.2
                have a4 := iE _ a3.1 a3.2
                exact pMatch_poob toks e he .CLOSE_PARENTHESIS
                  (by intro hx; cases hx) _ a4.1 a4.2 })
            | exact pMatch_poob toks e he .BOOL_VAL (by intro hx; cases hx) s ho hc
            | exact ⟨ho, hc⟩
    · -- parse_print_statement
      intro s ho hc
      rw [pPrint]
      have a1 := pMatch_poob toks e he .PRINT (by intro hx; cases hx) s ho hc
      have a2 := pMatch_poob toks e he .OPEN_PARENTHESIS (by intro hx; cases hx) _ a1.1 a1.2
      have a3 := iE _ a2.1 a2.2
      exact pMatch_poob toks e he .CLOSE_PARENTHESIS (by intro hx; cases hx) _ a3.1 a3.2
    · -- parse_assignment_statement
      intro s ho hc
      rw [pAssign]
      have a1 := pId_poob toks e he s ho hc
      have a2 := pMatch_poob toks e he .ASSIGN_OP (by intro hx; cases hx) _ a1.1 a1.2
      exact iE _ a2.1 a2.2
    · -- parse_while_statement
      intro s ho hc
      rw [pWhile]
      have a1 := pMatch_poob toks e he .WHILE (by intro hx; cases hx) s ho hc
      have a2 := iB _ a1.1 a1.2
      exact iK _ a2.1 a2.2
    · -- parse_if_statement
      intro s ho hc
      rw [pIf]
      have a1 := pMatch_poob toks e he .IF (by intro hx; cases hx) s ho hc
      have a2 := iB _ a1.1 a1.2
      exact iK _ a2.1 a2.2
    · -- parse_statement
      intro s ho hc
      rw [pStmt]
      cases h : toks[s.cursor]? with
      | none =>
        exfalso
        have := List.getElem?_eq_none_iff.mp h
        omega
      | some t =>
        simp only []
        obtain ⟨tt0, v0, l0⟩ := t
        cases tt0 <;>
          first
            | exact iP s ho hc
            | exact iA s ho hc
            | exact pVarDecl_poob toks e he s ho hc
            | exact iW s ho hc
            | exact iF s ho hc
            | exact iK s ho hc
            | exact ⟨ho, hc⟩
    · -- parse_statement_list
      intro s ho hc
      rw [pStmtList]
      cases h : toks[s.cursor]? with
      | none =>
        exfalso
        have := List.getElem?_eq_none_iff.mp h
        omega
      | some t =>
        simp only []
        obtain ⟨tt0, v0, l0⟩ := t
        cases tt0 <;>
          first
            | (refine ?_ ; {
                have a1 := iS s ho hc
                exact iL _ a1.1 a1.2 })
            | exact ⟨ho, hc⟩
    · -- parse_block
      intro s ho hc
      rw [pBlock]
      have a1 := pMatch_poob toks e he .OPEN_BLOCK (by intro hx; cases hx) s ho hc
      have a2 := iL _ a1.1 a1.2
      exact pMatch_poob toks e he .CLOSE_BLOCK (by intro hx; cases hx) _ a2.1 a2.2

/-- `parse_program` never takes the out-of-bounds branch when some token of
the vector is an `EOP`. -/
theorem pProgram_oob (he : tokTypeAt toks e = some .EOP) (n : Nat) (s : PSt)
    (ho : s.oob = false) (hc : s.cursor ≤ e) :
    (pProgram toks n s).oob = false := by
  have heL : e < toks.length := tokTypeAt_lt toks e .EOP he
  cases n with
  | zero => rw [pProgram]; exact ho
  | succ m =>
    rw [pProgram]
    have a1 := (parserOob toks e he m).2.2.2.2.2.2.2.2.2 s ho hc
    exact pMatch_oob_inbounds toks .EOP _ a1.1 (by have := a1.2; omega)

end ParserOob

/-! ### Character-class facts used by the string-scanning theorems -/

theorem cSpace_cases (c : Char) (hs : cIsSpace c = true) :
    c = ' ' ∨ c = '\t' ∨ c = '\n' ∨ c = '\x0b' ∨ c = '\x0c' ∨ c = '\r' := by
  simp only [cIsSpace, Bool.or_eq_true, decide_eq_true_eq] at hs
  tauto

theorem cAlpha_ne (c : Char) (ha : cIsAlpha c = true) :
    c ≠ '"' ∧ c ≠ '\x00' ∧ c ≠ ' ' := by
  simp only [cIsAlpha, Bool.or_eq_true, Bool.and_eq_true, decide_eq_true_eq] at ha
  refine ⟨?_, ?_, ?_⟩ <;> intro he <;> subst he <;>
    rcases ha with ⟨h1, h2⟩ | ⟨h1, h2⟩ <;> exact absurd h1 (by decide)

theorem cLower_alpha (c : Char) (hl : cIsLower c = true) : cIsAlpha c = true := by
  unfold cIsLower at hl
  unfold cIsAlpha
  rw [hl]
  rfl

theorem cSpace_ne (c : Char) (hs : cIsSpace c = true) :
    c ≠ '"' ∧ c ≠ '\x00' := by
  rcases cSpace_cases c hs with h | h | h | h | h | h <;> subst h <;>
    exact ⟨by decide, by decide⟩

theorem cSpace_not_lower (c : Char) (hs : cIsSpace c = true) (hne : c ≠ ' ') :
    cIsLower c = false := by
  rcases cSpace_cases c hs with h | h | h | h | h | h
  · exact absurd h hne
  all_goals (subst h; decide)

/-! ### The checked claims -/

/-- C1: refuted by execution.  Lookup does search innermost-to-outermost and
stop at the first hit, but `exitScope` never pops the exited frame while
`addSymbol` writes to `scopes.back()` and `findSymbol` scans indices
`currentScopeLevel..0`; so after a nested block that declared `b` exits and a
sibling scope is entered, `currentScopeLevel` points at the stale frame and a
lookup of `b` still succeeds instead of reporting it undeclared. -/
theorem C1_scope_isolation_bug :
    ((SemSt.enterScope (SemSt.exitScope ((SemSt.addSymbol
        (SemSt.enterScope (SemSt.enterScope ⟨[], -1, 0, [], 0, false, false⟩))
        ['b'] ['i','n','t'] 1).1))).findSymbol ['b']).2.isSome = true := by
  decide

/-- The token vector the lexer produces for the spec's end-to-end example 2
(verified inside `C2_example_analysis_run`). -/
def c2Tokens : List Token :=
  [⟨.OPEN_BLOCK, ['\x7b'], 1⟩, ⟨.I_TYPE, ['i','n','t'], 1⟩, ⟨.ID, ['a'], 1⟩,
   ⟨.ID, ['a'], 1⟩, ⟨.ASSIGN_OP, ['='], 1⟩, ⟨.NUMBER, ['5'], 1⟩,
   ⟨.PRINT, ['p','r','i','n','t'], 1⟩, ⟨.OPEN_PARENTHESIS, ['('], 1⟩,
   ⟨.ID, ['a'], 1⟩, ⟨.CLOSE_PARENTHESIS, [')'], 1⟩, ⟨.CLOSE_BLOCK, ['\x7d'], 1⟩,
   ⟨.EOP, ['$'], 1⟩]

set_option maxRecDepth 10000 in
set_option maxHeartbeats 1000000 in
/-- C2: refuted by execution.  On the spec's example 2 the front end reports
two errors, not zero: the assignment's right-hand side and `print`'s argument
are `UNKNOWN`-typed token children (built by `match_and_add`), so
`evaluate_expression` lands in its `default:` branch twice; and the symbol
table ends with `a` initialized = `false` (the type check and the
`markInitialized` call are commented out in the `ASSIGNMENT_STATEMENT`
case) — only used = `true` holds. -/
theorem C2_example_analysis_run :
    ((lexAndAnalyze "\x7bint a a=5 print(a)\x7d$").getD
        (⟨[], -1, 0, [], 0, false, false⟩, ⟨.UNKNOWN, [], 0, []⟩)).1.errors = 2 ∧
    ((lexAndAnalyze "\x7bint a a=5 print(a)\x7d$").getD
        (⟨[], -1, 0, [], 0, false, false⟩, ⟨.UNKNOWN, [], 0, []⟩)).1.diags
      = [.invalidExpr, .invalidExpr] ∧
    ((lexAndAnalyze "\x7bint a a=5 print(a)\x7d$").getD
        (⟨[], -1, 0, [], 0, false, false⟩, ⟨.UNKNOWN, [], 0, []⟩)).1.scopes
      = [[(['a'], ⟨['a'], ['i','n','t'], false, true, 1⟩)]] ∧
    (lexAndAnalyze "\x7bint a a=5 print(a)\x7d$").isSome = true := by
  have hlex : lexProgram "\x7bint a a=5 print(a)\x7d$" =
      (some c2Tokens, ⟨"\x7bint a a=5 print(a)\x7d$".toList, 21, 1, 0, [], c2Tokens⟩) := by
    simp [c2Tokens, lexProgram, lexScan, lexInit, scanLoop, scanToken, skipSpaces,
      scanTokenDispatch, lmatch, lmatchComment, skipToStar, scanKeyword,
      scanKeywordLoop, scanKeywordClassify, scanString, scanStringLoop,
      scanComment, scanCommentLoop, scanNumber, scanNumberLoop,
      scanNumberPosFix, scanNumberLineFix, LexSt.ladvance, LexSt.charAt,
      LexSt.lpeek, LexSt.lnext, LexSt.lprev, LexSt.isEOF, LexSt.pushWarn,
      LexSt.pushErr, LexSt.addToken, cIsSpace, cIsAlpha, cIsLower, cIsDigit]
    decide
  unfold lexAndAnalyze
  rw [hlex]
  decide

/-- C3: refuted by execution.  For a *declared* identifier,
`evaluate_expression`'s `ID` case finds the symbol but the `case` block falls
through into `default:`: the inference yields `Unknown` together with one
counted "Invalid expression" error, instead of the symbol's declared type
with no error (here: `a` declared as `int`). -/
theorem C3_id_inference_bug :
    (evalExpression
        ⟨[[(['a'], ⟨['a'], ['i','n','t'], false, false, 1⟩)]], 0, 0, [], 0, false, false⟩
        (ANode.mk .ID ['a'] 2 [])).1 = .Unknown ∧
    (evalExpression
        ⟨[[(['a'], ⟨['a'], ['i','n','t'], false, false, 1⟩)]], 0, 0, [], 0, false, false⟩
        (ANode.mk .ID ['a'] 2 [])).2.errors = 1 ∧
    (evalExpression
        ⟨[[(['a'], ⟨['a'], ['i','n','t'], false, false, 1⟩)]], 0, 0, [], 0, false, false⟩
        (ANode.mk .ID ['a'] 2 [])).2.diags = [.invalidExpr] := by
  decide

/-- C4 (amended): `scan` fails exactly when at least one ERROR-level
diagnostic was counted during the program span's loop; on the success path a
nonempty token vector not ending in `EOP` is reported as a missing-`$` ERROR
(while the tokens are still returned); but a `!` not followed by `=` is
logged as a WARNING only — the `!` case of `scan_token` emits the
`expectedEq` diagnostic without touching `error_count`, so such a `!` is not
among the failure-causing lexical errors. -/
theorem C4_lexer_failure_amended :
    (∀ st0 : LexSt,
      ((lexScan st0).1 = none ↔
        0 < (scanLoop { st0 with errors := 0, tokens := [] }).errors)) ∧
    (∀ st0 : LexSt,
      (scanLoop { st0 with errors := 0, tokens := [] }).errors = 0 →
      (scanLoop { st0 with errors := 0, tokens := [] }).tokens ≠ [] →
      ((scanLoop { st0 with errors := 0, tokens := [] }).tokens.getLastD
          ⟨.UNKNOWN, [], 0⟩).ttype ≠ .EOP →
      Diag.missingEop ∈ (lexScan st0).2.diags ∧ 0 < (lexScan st0).2.errors) ∧
    (∀ st1 : LexSt, (lmatch '=' st1).1 = false →
      scanTokenDispatch '!' st1 = ((lmatch '=' st1).2).pushWarn .expectedEq ∧
      (((lmatch '=' st1).2).pushWarn .expectedEq).errors
        = ((lmatch '=' st1).2).errors) := by
  refine ⟨?_, ?_, ?_⟩
  · intro st0
    simp only [lexScan]
    by_cases h : 0 < (scanLoop { st0 with errors := 0, tokens := [] }).errors
    · rw [if_pos h]
      simpa using h
    · rw [if_neg h]
      split
      · simpa using h
      · simpa using h
  · intro st0 h0 h1 h2
    simp only [lexScan]
    rw [if_neg (by omega)]
    rw [if_pos ⟨h1, h2⟩]
    refine ⟨?_, ?_⟩
    · simp [LexSt.pushErr]
    · simp [LexSt.pushErr]
  · intro st1 h
    refine ⟨?_, rfl⟩
    simp [scanTokenDispatch, h]

/-- C4, witness: the amended theorem's `!` clause applied at the lexer state
of `"!$"` right after the `!` was consumed. -/
theorem C4_lexer_failure_witness :
    (lmatch '=' ⟨['!', '$'], 1, 1, 0, [], []⟩).1 = false ∧
    scanTokenDispatch '!' ⟨['!', '$'], 1, 1, 0, [], []⟩ =
      ((lmatch '=' (⟨['!', '$'], 1, 1, 0, [], []⟩ : LexSt)).2).pushWarn .expectedEq :=
  ⟨by decide, (C4_lexer_failure_amended.2.2 ⟨['!', '$'], 1, 1, 0, [], []⟩ (by decide)).1⟩

/-- C4, counterexample to the frozen claim: the program `"!$"` contains a `!`
not followed by `=` — per the claim a recoverable lexical *error*, which
should make `scan` fail — yet `scan` succeeds with zero counted errors; the
sole diagnostic is the warning. -/
theorem C4_lexer_failure_counterexample :
    (lexProgram "!$").1.isSome = true ∧ (lexProgram "!$").2.errors = 0 ∧
    (lexProgram "!$").2.diags = [.expectedEq] := by
  simp [lexProgram, lexScan, lexInit, scanLoop, scanToken, skipSpaces,
    scanTokenDispatch, lmatch, lmatchComment, skipToStar,
    LexSt.ladvance, LexSt.charAt, LexSt.lpeek, LexSt.lnext, LexSt.lprev,
    LexSt.isEOF, LexSt.pushWarn, LexSt.pushErr, LexSt.addToken,
    cIsSpace, cIsAlpha, cIsLower, cIsDigit]

/-- C5 (amended): inside a quoted string, at the current character `c`:
a lowercase letter or `' '` becomes its own `CHAR` token and scanning
continues; an uppercase letter or a non-space whitespace character is
reported as an error and scanning continues; the closing `"` (when reached)
is consumed and becomes its own `QUOTE` token; but *any other* character
(digit, punctuation, end of input) makes the loop stop right there — the
unterminated-string error is then reported even when a closing quote follows
later in the input, which the claim's "scanning continues
character-by-character to the closing quote" denies. -/
theorem C5_scan_string_amended (st : LexSt) :
    (st.lpeek = '"' →
      scanString st = ((st.ladvance).2).addToken .QUOTE ['"']) ∧
    (cIsLower st.lpeek = true ∨ st.lpeek = ' ' →
      scanStringLoop st = scanStringLoop ((st.addToken .CHAR [st.lpeek]).ladvance).2) ∧
    ((cIsAlpha st.lpeek = true ∧ cIsLower st.lpeek = false) ∨
        (cIsSpace st.lpeek = true ∧ st.lpeek ≠ ' ') →
      scanStringLoop st
        = scanStringLoop ((st.pushErr (.unrecognizedChar st.lpeek)).ladvance).2) ∧
    (st.lpeek ≠ '"' → cIsAlpha st.lpeek = false → cIsSpace st.lpeek = false →
      scanStringLoop st = st ∧ scanString st = st.pushErr .untermString) := by
  refine ⟨?_, ?_, ?_, ?_⟩
  · intro hq
    have hloop : scanStringLoop st = st := by
      rw [scanStringLoop, dif_neg]
      intro hcontra
      exact hcontra.1 hq
    have hEOF : st.isEOF = false := by
      cases hE : st.isEOF with
      | false => rfl
      | true =>
        exfalso
        have : st.lpeek = '\x00' := by rw [LexSt.lpeek, if_pos hE]
        rw [this] at hq
        cases hq
    rw [scanString, if_neg, hloop]
    intro hcontra
    rw [hloop] at hcontra
    rcases hcontra with ha | hb
    · rw [hEOF] at ha
      cases ha
    · exact hb hq
  · intro hc
    have halpha : cIsAlpha st.lpeek = true ∨ st.lpeek = ' ' := by
      rcases hc with hl | hs
      · exact Or.inl (cLower_alpha _ hl)
      · exact Or.inr hs
    have hne0 : st.lpeek ≠ '\x00' := by
      rcases halpha with ha | hsp
      · exact (cAlpha_ne _ ha).2.1
      · rw [hsp]; decide
    have hneq : st.lpeek ≠ '"' := by
      rcases halpha with ha | hsp
      · exact (cAlpha_ne _ ha).1
      · rw [hsp]; decide
    have halo : cIsAlpha st.lpeek = true ∨ cIsSpace st.lpeek = true := by
      rcases halpha with ha | hsp
      · exact Or.inl ha
      · right; rw [hsp]; rfl
    have hnotbad : ¬ (¬ (cIsLower st.lpeek = true) ∧ st.lpeek ≠ ' ') := by
      rcases hc with hl | hs
      · intro hbad
        exact hbad.1 hl
      · intro hbad
        exact hbad.2 hs
    rw [scanStringLoop, dif_pos ⟨hneq, hne0, by simpa using halo⟩]
    show scanStringLoop (((if ¬ (cIsLower st.lpeek) = true ∧ st.lpeek ≠ ' ' then
        st.pushErr (.unrecognizedChar st.lpeek)
      else st.addToken .CHAR [st.lpeek]).ladvance)).2 = _
    rw [if_neg (by simpa using hnotbad)]
  · intro hc
    have hne0 : st.lpeek ≠ '\x00' := by
      rcases hc with ⟨ha, h2⟩ | ⟨hs, h2⟩
      · exact (cAlpha_ne _ ha).2.1
      · exact (cSpace_ne _ hs).2
    have hneq : st.lpeek ≠ '"' := by
      rcases hc with ⟨ha, h2⟩ | ⟨hs, h2⟩
      · exact (cAlpha_ne _ ha).1
      · exact (cSpace_ne _ hs).1
    have halo : cIsAlpha st.lpeek = true ∨ cIsSpace st.lpeek = true := by
      rcases hc with ⟨ha, h2⟩ | ⟨hs, h2⟩
      · exact Or.inl ha
      · exact Or.inr hs
    have hbad : ¬ (cIsLower st.lpeek = true) ∧ st.lpeek ≠ ' ' := by
      rcases hc with ⟨ha, hnl⟩ | ⟨hs, hnsp⟩
      · refine ⟨by rw [hnl]; exact Bool.false_ne_true, (cAlpha_ne _ ha).2.2⟩
      · refine ⟨?_, hnsp⟩
        rw [cSpace_not_lower _ hs hnsp]
        exact Bool.false_ne_true
    rw [scanStringLoop, dif_pos ⟨hneq, hne0, by simpa using halo⟩]
    show scanStringLoop (((if ¬ (cIsLower st.lpeek) = true ∧ st.lpeek ≠ ' ' then
        st.pushErr (.unrecognizedChar st.lpeek)
      else st.addToken .CHAR [st.lpeek]).ladvance)).2 = _
    rw [if_pos (by simpa using hbad)]
  · intro hq ha hs
    have hloop : scanStringLoop st = st := by
      rw [scanStringLoop, dif_neg]
      intro hcontra
      rcases hcontra.2.2 with h1 | h1
      · rw [ha] at h1
        cases h1
      · rw [hs] at h1
        cases h1
    refine ⟨hloop, ?_⟩
    rw [scanString, if_pos, hloop]
    rw [hloop]
    exact Or.inr hq

/-- C5, witness: the amended theorem applied inside `"\"a\"$"` (a lowercase
letter becomes a char-token and the loop continues) and inside `"\"5\"$"`
(the digit stops the loop and the unterminated-string error is reported). -/
theorem C5_scan_string_witness :
    scanStringLoop ⟨['"', 'a', '"', '$'], 1, 1, 0, [], []⟩ =
      scanStringLoop ((((⟨['"', 'a', '"', '$'], 1, 1, 0, [], []⟩ : LexSt)).addToken .CHAR
        [(⟨['"', 'a', '"', '$'], 1, 1, 0, [], []⟩ : LexSt).lpeek]).ladvance).2 ∧
    scanStringLoop ⟨['"', '5', '"', '$'], 1, 1, 0, [], []⟩ =
      (⟨['"', '5', '"', '$'], 1, 1, 0, [], []⟩ : LexSt) ∧
    scanString ⟨['"', '5', '"', '$'], 1, 1, 0, [], []⟩ =
      (⟨['"', '5', '"', '$'], 1, 1, 0, [], []⟩ : LexSt).pushErr .untermString :=
  ⟨(C5_scan_string_amended ⟨['"', 'a', '"', '$'], 1, 1, 0, [], []⟩).2.1
      (Or.inl (by decide)),
   ((C5_scan_string_amended ⟨['"', '5', '"', '$'], 1, 1, 0, [], []⟩).2.2.2
      (by decide) (by decide) (by decide)).1,
   ((C5_scan_string_amended ⟨['"', '5', '"', '$'], 1, 1, 0, [], []⟩).2.2.2
      (by decide) (by decide) (by decide)).2⟩

/-- C5, counterexample to the frozen claim: in `"\"5\"$"` the digit `5`
inside the string should be "reported as an error while scanning continues
character-by-character to the closing quote"; instead the loop stops at the
digit, the string is (twice) reported unterminated although its closing
quote is present, and the whole scan fails. -/
theorem C5_scan_string_counterexample :
    (lexProgram "\"5\"$").1 = none ∧
    (lexProgram "\"5\"$").2.diags = [.untermString, .untermString, .lexFail] := by
  simp [lexProgram, lexScan, lexInit, scanLoop, scanToken, skipSpaces,
    scanTokenDispatch, lmatch, lmatchComment, skipToStar, scanKeyword,
    scanKeywordLoop, scanKeywordClassify, scanString, scanStringLoop,
    scanComment, scanCommentLoop, scanNumber, scanNumberLoop,
    scanNumberPosFix, scanNumberLineFix, LexSt.ladvance, LexSt.charAt,
    LexSt.lpeek, LexSt.lnext, LexSt.lprev, LexSt.isEOF, LexSt.pushWarn,
    LexSt.pushErr, LexSt.addToken, cIsSpace, cIsAlpha, cIsLower, cIsDigit]

/-- The token vector the lexer produces for `"\x7bint a \x7b\x7d int a\x7d$"`
(verified inside `C6_redeclaration_missed`). -/
def c6Tokens : List Token :=
  [⟨.OPEN_BLOCK, ['\x7b'], 1⟩, ⟨.I_TYPE, ['i','n','t'], 1⟩, ⟨.ID, ['a'], 1⟩,
   ⟨.OPEN_BLOCK, ['\x7b'], 1⟩, ⟨.CLOSE_BLOCK, ['\x7d'], 1⟩,
   ⟨.I_TYPE, ['i','n','t'], 1⟩, ⟨.ID, ['a'], 1⟩, ⟨.CLOSE_BLOCK, ['\x7d'], 1⟩,
   ⟨.EOP, ['$'], 1⟩]

set_option maxRecDepth 10000 in
set_option maxHeartbeats 1000000 in
/-- C6: refuted by execution.  `addSymbol` alone does flag a name already
present in its target frame, but the claim quantifies over programs, and at
program level the promised "exactly one redeclaration error" fails: in
`"\x7bint a \x7b\x7d int a\x7d$"` the name `a` is declared twice in the same
scope frame, yet — because `exitScope` never pops the exited frame and
`addSymbol` inserts into `scopes.back()` — the second declaration lands in
the stale frame of the already-exited empty block, no redeclaration is
detected, and analysis ends with zero errors, two frames each holding an
`a`, and a single unused-variable warning. -/
theorem C6_redeclaration_missed :
    ((lexAndAnalyze "\x7bint a \x7b\x7d int a\x7d$").getD
        (⟨[], -1, 0, [], 0, false, false⟩, ⟨.UNKNOWN, [], 0, []⟩)).1.errors = 0 ∧
    ((lexAndAnalyze "\x7bint a \x7b\x7d int a\x7d$").getD
        (⟨[], -1, 0, [], 0, false, false⟩, ⟨.UNKNOWN, [], 0, []⟩)).1.diags
      = [.unusedVar ['a']] ∧
    ((lexAndAnalyze "\x7bint a \x7b\x7d int a\x7d$").getD
        (⟨[], -1, 0, [], 0, false, false⟩, ⟨.UNKNOWN, [], 0, []⟩)).1.scopes
      = [[(['a'], ⟨['a'], ['i','n','t'], false, false, 1⟩)],
         [(['a'], ⟨['a'], ['i','n','t'], false, false, 1⟩)]] ∧
    (lexAndAnalyze "\x7bint a \x7b\x7d int a\x7d$").isSome = true := by
  have hlex : lexProgram "\x7bint a \x7b\x7d int a\x7d$" =
      (some c6Tokens, ⟨"\x7bint a \x7b\x7d int a\x7d$".toList, 17, 1, 0, [], c6Tokens⟩) := by
    simp [c6Tokens, lexProgram, lexScan, lexInit, scanLoop, scanToken, skipSpaces,
      scanTokenDispatch, lmatch, lmatchComment, skipToStar, scanKeyword,
      scanKeywordLoop, scanKeywordClassify, scanString, scanStringLoop,
      scanComment, scanCommentLoop, scanNumber, scanNumberLoop,
      scanNumberPosFix, scanNumberLineFix, LexSt.ladvance, LexSt.charAt,
      LexSt.lpeek, LexSt.lnext, LexSt.lprev, LexSt.isEOF, LexSt.pushWarn,
      LexSt.pushErr, LexSt.addToken, cIsSpace, cIsAlpha, cIsLower, cIsDigit]
  unfold lexAndAnalyze
  rw [hlex]
  decide

/-- C7: refuted by execution.  `backpatch` runs
`code[offset] = position; position += 2;` per recorded occurrence: it writes
the running `position` counter — not any resolved symbol address — into the
low placeholder byte only, leaves the high byte untouched, and changes the
value between occurrences, so the two placeholders of one symbol end up as
`6` and `8` (high bytes `0`) instead of one equal resolved address. -/
theorem C7_backpatch_bug :
    (CodeBuffer.backpatch (CodeBuffer.emitWithTempAddress 173 0
        (CodeBuffer.emitWithTempAddress 173 0 CodeBuffer.init))).code.take 6
      = [173, 6, 0, 173, 8, 0] ∧
    (CodeBuffer.emitWithTempAddress 173 0
        (CodeBuffer.emitWithTempAddress 173 0 CodeBuffer.init)).temps
      = [(0, [1, 4])] := by
  decide

set_option maxRecDepth 10000 in
set_option maxHeartbeats 2000000 in
/-- C8: refuted by execution.  `position` is a `uint8_t`, so `emit`'s guard
`if (position >= 256) throw` can never fire: after 256 emitted bytes the
counter wraps to `0` and the 257th byte silently overwrites `code[0]`
(below: the 257th byte `9` lands at offset 0 with no error raised), instead
of raising the fatal capacity error the spec promises; `add_string_variable`
has no bound or overlap check at all. -/
theorem C8_buffer_overflow_bug :
    (CodeBuffer.emit 9 ((List.range 256).foldl (fun b x => CodeBuffer.emit 1 b)
        CodeBuffer.init)).err = false ∧
    (CodeBuffer.emit 9 ((List.range 256).foldl (fun b x => CodeBuffer.emit 1 b)
        CodeBuffer.init)).position = 1 ∧
    (CodeBuffer.emit 9 ((List.range 256).foldl (fun b x => CodeBuffer.emit 1 b)
        CodeBuffer.init)).code.getD 0 0 = 9 := by
  decide

/-- C9: the recursive-descent parser terminates on every finite token
sequence, malformed ones included: fuel `12·|tokens| + 12` is never
exhausted, i.e. the recursion/iteration budget of `parse()` is bounded in
the input length even when `match` keeps failing on a stuck token (the
statement-list dispatch only recurses on statement-start kinds, each of
which consumes at least one token). -/
theorem C9_parser_terminates (toks : List Token) :
    (pParse toks (12 * toks.length + 12)).2.fuelOut = false := by
  rw [pParse_snd]
  exact pProgram_complete toks _ (le_refl _)

/-- C10 (amended): whenever some token of the sequence is an `EOP`, no rule
of `parse()` reads out of bounds — the cursor can never pass the first such
index, every `current_token` dereference stays inside the vector, and the
out-of-bounds branch of the embedding is never taken; the claim's
unconditional form fails on the empty token sequence. -/
theorem C10_parser_in_bounds_amended (toks : List Token) (e : Nat)
    (he : tokTypeAt toks e = some .EOP) (n : Nat) :
    (pParse toks n).2.oob = false := by
  rw [pParse_snd]
  exact pProgram_oob toks e he n _ rfl (Nat.zero_le e)

/-- C10, witness: the amended theorem applied to the one-token sequence
`[EOP]`. -/
theorem C10_parser_in_bounds_witness :
    tokTypeAt [⟨.EOP, ['$'], 1⟩] 0 = some .EOP ∧
    (pParse [⟨.EOP, ['$'], 1⟩] 5).2.oob = false :=
  ⟨by decide, C10_parser_in_bounds_amended [⟨.EOP, ['$'], 1⟩] 0 (by decide) 5⟩

/-- C10, counterexample to the frozen claim: on the empty token sequence —
which the claim explicitly includes — `parse()` immediately dereferences
`tokens.end()`: the out-of-bounds branch is taken. -/
theorem C10_parser_oob_counterexample :
    (pParse ([] : List Token) 16).2.oob = true := by
  decide

end RC
